import Mathlib

/-!
Verification development for the camera driver and the motor control of the
desktop launcher firmware (`Desktop_Launcher/camera.c`,
`Desktop_Launcher/motor.c`).

The C code is embedded shallowly: the process-wide variables of `camera.c`
become the fields of `Camera.State`, the PWM registers and speed variables of
`motor.c` the fields of `Motor.State`, every C function becomes a function
on that state, and machine integers are natural numbers reduced modulo
`2^w` at the places where the C code converts or stores them.
-/

set_option linter.unusedVariables false

namespace Camera

/-! ## Defines of camera.c -/

def SYNC_BYTE : Nat := 0x56
def SERIAL_ID : Nat := 0x00
def RESPONSE_BYTE : Nat := 0x76
def COMMAND_STOPCURRENTFRAME : Nat := 0x00
def COMMAND_RESUMEFRAME : Nat := 0x03
def COMMAND_RESET : Nat := 0x26
def COMMAND_GEN_VERSION : Nat := 0x11
def COMMAND_READ_DATA : Nat := 0x30
def COMMAND_WRITE_DATA : Nat := 0x31
def COMMAND_READ_FBUF : Nat := 0x32
def COMMAND_GET_FBUF_LEN : Nat := 0x34
def COMMAND_FBUF_CTRL : Nat := 0x36
def CAMERA_BUFFER_SIZE : Nat := 100
def CAMERADELAY : Nat := 10
def CAMERA_FRAME_CHUNK_SIZE : Nat := 64
def STD_WAIT : Nat := 70000

/-- The constant array `COMMAND_HEADER[] = {SYNC_BYTE, SERIAL_ID}`. -/
def COMMAND_HEADER : List Nat := [SYNC_BYTE, SERIAL_ID]

/-! ## State -/

/-- One operation performed on the camera serial device. A write records the
bytes handed to the device; a read records the maximum byte count asked for,
the idle timeout passed down, and the bytes that arrived. -/
inductive Op where
  | write (bytes : List Nat)
  | read (max : Nat) (timeout : Nat) (got : List Nat)
  deriving DecidableEq, Repr

/-- The globals of `camera.c` (`camera_buffer`, `buffer_length`, `frame_ptr`)
together with the serial device. `rx` lists, for each future read call, the
bytes the device has to offer to that call before the line goes idle; `trace`
is the log of the operations performed so far, oldest first. -/
structure State where
  camera_buffer : List Nat
  buffer_length : Nat
  frame_ptr : Nat
  rx : List (List Nat)
  trace : List Op
  deriving DecidableEq, Repr

/-- Result of running a C function: either it returned `val` in state `st`,
or an `assert` failed and the program stopped in state `st`. -/
inductive Outcome (α : Type) where
  | ret (val : α) (st : State)
  | assert_fail (st : State)
  deriving Repr

/-- Sequencing: continue with `f` after a normal return, stop at a failed assertion. -/
def Outcome.bind {α β : Type} (o : Outcome α) (f : α → State → Outcome β) : Outcome β :=
  match o with
  | .ret v s => f v s
  | .assert_fail s => .assert_fail s

/-- The state in which the function returned or stopped. -/
def Outcome.state {α : Type} : Outcome α → State
  | .ret _ s => s
  | .assert_fail s => s

/-- The returned value, when the function returned. -/
def Outcome.val? {α : Type} : Outcome α → Option α
  | .ret v _ => some v
  | .assert_fail _ => none

/-- All bytes written to the device, concatenated in write order. -/
def written : List Op → List Nat
  | [] => []
  | .write bytes :: ops => bytes ++ written ops
  | .read _ _ _ :: ops => written ops

/-- The value of `camera_buffer[i]`. -/
def State.buf (s : State) (i : Nat) : Nat := s.camera_buffer.getD i 0

/-! ## Serial layer (declared in serial.h) -/

/-- Modelled from the spec: `serial_write` is only declared in `serial.h`.
The transport contract is `write(bytes) -> bytesWritten`; the first
`source_array_size` bytes of the source are handed to the device. -/
def serial_write (source_array : List Nat) (source_array_size : Nat) (s : State) : Nat × State :=
  let bytes := source_array.take source_array_size
  (bytes.length, { s with trace := s.trace ++ [Op.write bytes] })

/-- Modelled from the spec: `serial_read_timeout` is only declared in
`serial.h`. The transport contract is
`readWithIdleTimeout(maxBytes, idleTimeoutMicros) -> bytesReceived`, returning
as soon as `maxBytes` are read or the line stays idle longer than the timeout:
the call receives at most `source_array_size` of the bytes on offer. The
received bytes are returned; the caller stores them at its destination. -/
def serial_read_timeout (source_array_size timeout_usec : Nat) (s : State) : List Nat × State :=
  let got := (s.rx.headD []).take source_array_size
  (got, { s with rx := s.rx.tail,
                 trace := s.trace ++ [Op.read source_array_size timeout_usec got] })

/-! ## Private functions of camera.c -/

/-- The function `send_command`: three writes, header, command byte, arguments. -/
def send_command (cmd : Nat) (command_args : List Nat) (args_length : Nat) (s : State) : State :=
  let s1 := (serial_write COMMAND_HEADER 2 s).2
  let s2 := (serial_write [cmd] 1 s1).2
  (serial_write command_args args_length s2).2

/-- The function `read_response`: asserts `numbytes <= CAMERA_BUFFER_SIZE`, reads into
`camera_buffer` from index 0 and stores the count in the `uint8_t` global
`buffer_length`. The `timeout` parameter is not used by the C code, which
always passes `STD_WAIT` down. -/
def read_response (numbytes timeout : Nat) (s : State) : Outcome Nat :=
  if numbytes ≤ CAMERA_BUFFER_SIZE then
    let r := serial_read_timeout numbytes STD_WAIT s
    let s1 := { r.2 with camera_buffer := r.1 ++ r.2.camera_buffer.drop r.1.length,
                         buffer_length := r.1.length % 256 }
    .ret s1.buffer_length s1
  else
    .assert_fail s

/-- The function `verify_response`: 0 unless the first four buffer bytes are
`[RESPONSE_BYTE, SERIAL_ID, cmd, 0x00]`. -/
def verify_response (cmd : Nat) (s : State) : Int :=
  if s.buf 0 ≠ RESPONSE_BYTE ∨ s.buf 1 ≠ SERIAL_ID ∨ s.buf 2 ≠ cmd ∨ s.buf 3 ≠ 0x00 then 0
  else 1

/-- The function `run_command`: optional drain read, send, read the response,
compare the received length, verify the header. -/
def run_command (cmd : Nat) (command_args : List Nat) (command_arg_length : Nat)
    (response_length : Nat) (flush_buffer : Int) (s : State) : Outcome Int :=
  (if flush_buffer ≠ 0 then read_response CAMERA_BUFFER_SIZE 10 s
   else .ret 0 s).bind fun _ s1 =>
  let s2 := send_command cmd command_args command_arg_length s1
  (read_response response_length (STD_WAIT % 256) s2).bind fun received_response_length s3 =>
  if received_response_length ≠ response_length then .ret 0 s3
  else if verify_response cmd s3 = 0 then .ret 0 s3
  else .ret 1 s3

/-- The function `camera_frame_buff_ctrl`. -/
def camera_frame_buff_ctrl (command : Nat) (s : State) : Outcome Int :=
  run_command COMMAND_FBUF_CTRL [0x1, command] 2 5 1 s

/-! ## Public functions of camera.c -/

/-- The function `take_picture`: `frame_ptr = 0`, then the frame buffer control command. -/
def take_picture (s : State) : Outcome Int :=
  camera_frame_buff_ctrl COMMAND_STOPCURRENTFRAME { s with frame_ptr := 0 }

/-- The function `resume_picture`. -/
def resume_picture (s : State) : Outcome Int :=
  camera_frame_buff_ctrl COMMAND_RESUMEFRAME { s with frame_ptr := 0 }

/-- The function `frame_length`: four response bytes from index 5 assembled by
shift and or in a `uint32_t`. -/
def frame_length (s : State) : Outcome Nat :=
  (run_command COMMAND_GET_FBUF_LEN [0x01, 0x00] 2 9 1 s).bind fun command_response s1 =>
  if command_response = 0 then .ret 0 s1
  else
    let len := s1.buf 5
    let len := (len <<< 8) % 2 ^ 32
    let len := len ||| s1.buf 6
    let len := (len <<< 8) % 2 ^ 32
    let len := len ||| s1.buf 7
    let len := (len <<< 8) % 2 ^ 32
    let len := len ||| s1.buf 8
    .ret len s1

/-- The function `camera_reset`. -/
def camera_reset (s : State) : Outcome Int :=
  run_command COMMAND_RESET [0x0] 1 5 1 s

/-- The value a `uint8_t *` function returns: the null pointer or `camera_buffer`. -/
inductive Ptr where
  | null
  | camera_buffer
  deriving DecidableEq, Repr

/-- The argument array of the read-frame-buffer command, each entry stored as a `uint8_t`. -/
def read_fbuf_args (frame_ptr n : Nat) : List Nat :=
  [0x0C, 0x0, 0x0A, 0, 0, (frame_ptr >>> 8) % 256, (frame_ptr &&& 0xFF) % 256,
   0, 0, 0, n % 256, (CAMERADELAY >>> 8) % 256, (CAMERADELAY &&& 0xFF) % 256]

/-- The function `read_picture`: the command with no drain, then a second read of
`n+5` bytes (converted to the `uint8_t` parameter of `read_response`), then
`frame_ptr += n` in 16 bits. -/
def read_picture (n : Nat) (s : State) : Outcome Ptr :=
  let args := read_fbuf_args s.frame_ptr n
  (run_command COMMAND_READ_FBUF args args.length 5 0 s).bind fun response s1 =>
  if response = 0 then .ret Ptr.null s1
  else
    (read_response ((n + 5) % 256) CAMERADELAY s1).bind fun response s2 =>
    if response = 0 then .ret Ptr.null s2
    else .ret Ptr.camera_buffer { s2 with frame_ptr := (s2.frame_ptr + n) % 65536 }

/-- The function `get_image_resolution`: `0xFF` when the command fails, else
`camera_buffer[5]`. The type `resolution` is declared in `camera.h`; the
specification describes it as a byte value. -/
def get_image_resolution (s : State) : Outcome Nat :=
  (run_command COMMAND_READ_DATA [0x04, 0x04, 0x01, 0x00, 0x19] 0x05 0x06 1 s).bind
    fun command_result s1 =>
  if command_result = 0 then .ret 0xFF s1
  else .ret (s1.buf 5) s1

/-- The function `set_image_resolution`: the new resolution is the last entry of
the `uint8_t` argument array. -/
def set_image_resolution (new_resolution : Nat) (s : State) : Outcome Int :=
  run_command COMMAND_WRITE_DATA [0x05, 0x04, 0x01, 0x00, 0x19, new_resolution % 256]
    0x06 0x05 1 s

/-- Memory reached through a caller-supplied pointer, indexed from the pointer. -/
abbrev Mem := Nat → Nat

/-- The memory after the bytes `got` were stored from index `off` on. -/
def store (mem : Mem) (off : Nat) (got : List Nat) : Mem :=
  fun i => if off ≤ i ∧ i < off + got.length then got.getD (i - off) 0 else mem i

/-- The function `read_picture_to_ptr`: the command with no drain, then a read of
`n+5` bytes straight into `jpeg_buffer + frame_ptr` with timeout 1000, whose
count goes to a local variable; the second test looks at `response` again;
then `frame_ptr += n`. The function returns 0 on the early exits and falls
off its end without a value otherwise (`none`). The result pairs the returned
value with the destination memory. -/
def read_picture_to_ptr (jpeg_buffer : Mem) (n : Nat) (s : State) :
    Outcome (Option Int × Mem) :=
  let args := read_fbuf_args s.frame_ptr n
  (run_command COMMAND_READ_FBUF args args.length 5 0 s).bind fun response s1 =>
  if response = 0 then .ret (some 0, jpeg_buffer) s1
  else
    let r := serial_read_timeout (n + 5) 1000 s1
    let jpeg := store jpeg_buffer s1.frame_ptr r.1
    if response = 0 then .ret (some 0, jpeg) r.2
    else .ret (none, jpeg) { r.2 with frame_ptr := (r.2.frame_ptr + n) % 65536 }

/-! ## Auxiliary definitions used to state the properties -/

/-- The bytes on offer to the response read of `run_command`: the first
pending delivery, or the second one when a drain read comes first. -/
def response_offer (flush_buffer : Int) (s : State) : List Nat :=
  if flush_buffer ≠ 0 then s.rx.tail.headD [] else s.rx.headD []

/-- The state after `N` consecutive calls `read_picture(c)` each of which
returned `camera_buffer`; `none` when one of them returned the null pointer
or stopped at an assertion. -/
def read_picture_times (c : Nat) : Nat → State → Option State
  | 0, s => some s
  | k + 1, s =>
    match read_picture c s with
    | .ret Ptr.camera_buffer s1 => read_picture_times c k s1
    | _ => none

/-- The bytes delivered to the acknowledgment read of `read_picture` (the
response read of its `run_command`, which asks for 5 bytes without a drain). -/
def ack_bytes (s : State) : List Nat := (s.rx.headD []).take 5

/-- The acknowledgment of the read-frame-buffer command is complete and well formed. -/
abbrev ack_ok (s : State) : Prop :=
  (ack_bytes s).length = 5 ∧ (ack_bytes s).take 4 = [0x76, 0x00, 0x32, 0x00]

/-- The bytes delivered to the second, payload read of `read_picture n`, which
asks for `(n + 5) mod 256` bytes. -/
def payload_bytes (n : Nat) (s : State) : List Nat :=
  (s.rx.tail.headD []).take ((n + 5) % 256)

/-- A device script for `N` chunk reads: each one is offered the
acknowledgment `ack` and then the payload `pay`. -/
def chunk_script (ack pay : List Nat) : Nat → List (List Nat)
  | 0 => []
  | k + 1 => ack :: pay :: chunk_script ack pay k

/-- The well-formed 5-byte acknowledgment of the read-frame-buffer command. -/
def fbuf_ack : List Nat := [0x76, 0x00, 0x32, 0x00, 0x00]

/-- The state of `cam_init`: 101 zero bytes in the buffer, both counters zero,
with the given deliveries pending on the device. -/
def initState (rx : List (List Nat)) : State :=
  { camera_buffer := List.replicate (CAMERA_BUFFER_SIZE + 1) 0,
    buffer_length := 0, frame_ptr := 0, rx := rx, trace := [] }

/-- A state as after `cam_init` except that `frame_ptr` has the given value,
as left by earlier chunk reads. -/
def camState (frame_ptr : Nat) (rx : List (List Nat)) : State :=
  { initState rx with frame_ptr := frame_ptr }

/-- The receive buffer holding the acknowledgment of command `0x26` followed by
97 zero bytes, with nothing pending on the device. -/
def ackState : State :=
  { camera_buffer := [0x76, 0x00, 0x26, 0x00] ++ List.replicate 97 0,
    buffer_length := 5, frame_ptr := 0, rx := [], trace := [] }

/-- The largest byte count a transport operation asks to read (0 for a write). -/
def read_max : Op → Nat
  | .read max _ _ => max
  | .write _ => 0

/-- Every read among the operations asks for at most `cap` bytes. -/
def reads_within (cap : Nat) (ops : List Op) : Prop := ∀ op ∈ ops, read_max op ≤ cap

/-- The call `o` made in state `s` returned, every read it issued asked for at
most `CAMERA_BUFFER_SIZE` bytes, `buffer_length` is within that capacity
afterwards, and a receive buffer of `CAMERA_BUFFER_SIZE + 1` bytes still has
that many bytes. -/
def within_capacity {α : Type} (s : State) (o : Outcome α) : Prop :=
  (∃ v s1, o = .ret v s1)
  ∧ (∃ ops, o.state.trace = s.trace ++ ops ∧ reads_within CAMERA_BUFFER_SIZE ops)
  ∧ o.state.buffer_length ≤ CAMERA_BUFFER_SIZE
  ∧ (s.camera_buffer.length = CAMERA_BUFFER_SIZE + 1 →
      o.state.camera_buffer.length = CAMERA_BUFFER_SIZE + 1)

/-- The operations of the optional drain read of `run_command`. -/
def drain_ops (flush_buffer : Int) (s : State) : List Op :=
  if flush_buffer ≠ 0 then [Op.read CAMERA_BUFFER_SIZE STD_WAIT ((s.rx.headD []).take CAMERA_BUFFER_SIZE)]
  else []

/-- The three writes of `send_command`. -/
def frame_ops (cmd : Nat) (args : List Nat) : List Op :=
  [Op.write [0x56, 0x00], Op.write [cmd], Op.write args]

/-- The state after `N` consecutive calls `read_picture_to_ptr(buf, n)` together
with the destination memory; `none` when a call stopped at an assertion. -/
def read_picture_to_ptr_times (n : Nat) : Nat → Mem → State → Option (Mem × State)
  | 0, buf, s => some (buf, s)
  | k + 1, buf, s =>
    match read_picture_to_ptr buf n s with
    | .ret r s1 => read_picture_to_ptr_times n k r.2 s1
    | .assert_fail _ => none

/-- The device offers, to each of `N` chunk reads in turn, a complete well-formed
acknowledgment and then a payload of at least `n+5` bytes. -/
def chunks_delivered (n : Nat) : Nat → List (List Nat) → Prop
  | 0, _ => True
  | k + 1, a :: p :: rest =>
    ((a.take 5).length = 5 ∧ (a.take 5).take 4 = [0x76, 0x00, 0x32, 0x00])
    ∧ (p.take (n + 5)).length = n + 5 ∧ chunks_delivered n k rest
  | _ + 1, _ => False

/-- The first `n` bytes of each of the `N` payloads, concatenated in call order. -/
def payload_concat (n : Nat) : Nat → List (List Nat) → List Nat
  | 0, _ => []
  | k + 1, _ :: p :: rest => p.take n ++ payload_concat n k rest
  | _ + 1, _ => []

/-- The destination memory filled with zeros. -/
def zeroMem : Mem := fun _ => 0

end Camera

namespace Motor

/-! ## Motor limits of motor.c -/

def kCW180_MAX : Nat := 7500
def kCW180_MIN : Nat := 1850
def kCW180_MID : Nat := (kCW180_MIN + kCW180_MAX) / 2
def kRANGE360 : Nat := 1000
def kCW360_MID : Nat := 4150
def kCW360_MAX : Nat := kCW360_MID + kRANGE360
def kCW360_MIN : Nat := kCW360_MID - kRANGE360

/-- The three memory-mapped `unsigned short` PWM registers and the two
`unsigned short` globals of `motor.c`. -/
structure State where
  PWM_CW180 : Nat
  PWM_CW360 : Nat
  PWM_CWFIRE : Nat
  updown_speed : Nat
  leftright_speed : Nat
  deriving DecidableEq, Repr

/-- Conversion of an integer result to `unsigned short`: reduction modulo `2^16`. -/
def to_u16 (x : Int) : Nat := (x % 65536).toNat

/-- The function `set_motor_speed`: the products are computed in `int` and
stored in `unsigned short` variables. -/
def set_motor_speed (speed_multiplier : Int) (s : State) : State :=
  { s with updown_speed := to_u16 (50 * speed_multiplier),
           leftright_speed := to_u16 (10 * speed_multiplier) }

/-- The function `init_motors`. -/
def init_motors (s : State) : State :=
  let s1 := set_motor_speed 1 s
  { s1 with PWM_CW180 := kCW180_MID, PWM_CW360 := kCW360_MID, PWM_CWFIRE := kCW180_MID }

/-- The function `move_up`; `none` when its assertion fails. -/
def move_up (s : State) : Option State :=
  if s.PWM_CW180 < kCW180_MAX then
    let s1 := { s with PWM_CW180 := to_u16 ((s.PWM_CW180 : Int) + (s.updown_speed : Int)) }
    let s2 := { s1 with PWM_CW180 := if s1.PWM_CW180 < kCW180_MAX then s1.PWM_CW180
                                     else kCW180_MAX }
    if s2.PWM_CW180 ≤ kCW180_MAX then some s2 else none
  else some s

/-- The function `move_down`; `none` when its assertion fails. -/
def move_down (s : State) : Option State :=
  if s.PWM_CW180 > kCW180_MIN then
    let s1 := { s with PWM_CW180 := to_u16 ((s.PWM_CW180 : Int) - (s.updown_speed : Int)) }
    let s2 := { s1 with PWM_CW180 := if s1.PWM_CW180 > kCW180_MIN then s1.PWM_CW180
                                     else kCW180_MIN }
    if s2.PWM_CW180 ≥ kCW180_MIN then some s2 else none
  else some s

/-- The function `move_left`; `none` when its assertion fails. -/
def move_left (s : State) : Option State :=
  if s.PWM_CW360 < kCW360_MAX then
    let s1 := { s with PWM_CW360 := to_u16 ((s.PWM_CW360 : Int) + (s.leftright_speed : Int)) }
    let s2 := { s1 with PWM_CW360 := if s1.PWM_CW360 < kCW360_MAX then s1.PWM_CW360
                                     else kCW360_MAX }
    if s2.PWM_CW360 ≤ kCW360_MAX then some s2 else none
  else some s

/-- The function `move_right`; `none` when its assertion fails. -/
def move_right (s : State) : Option State :=
  if s.PWM_CW360 > kCW360_MIN then
    let s1 := { s with PWM_CW360 := to_u16 ((s.PWM_CW360 : Int) - (s.leftright_speed : Int)) }
    let s2 := { s1 with PWM_CW360 := if s1.PWM_CW360 > kCW360_MIN then s1.PWM_CW360
                                     else kCW360_MIN }
    if s2.PWM_CW360 ≥ kCW360_MIN then some s2 else none
  else some s

/-- The function `stop_leftrght`. -/
def stop_leftrght (s : State) : State := { s with PWM_CW360 := kCW360_MID }

/-- The function `motor_load`. -/
def motor_load (s : State) : State := { s with PWM_CWFIRE := kCW180_MID }

/-- The function `motor_fire`. -/
def motor_fire (s : State) : State := { s with PWM_CWFIRE := kCW180_MAX }

/-! ## Auxiliary definitions used to state the properties -/

/-- Both position registers are within their limits. -/
abbrev in_limits (s : State) : Prop :=
  kCW180_MIN ≤ s.PWM_CW180 ∧ s.PWM_CW180 ≤ kCW180_MAX
  ∧ kCW360_MIN ≤ s.PWM_CW360 ∧ s.PWM_CW360 ≤ kCW360_MAX

/-- The motor functions that can be called after `init_motors`. -/
inductive Cmd where
  | move_up
  | move_down
  | move_left
  | move_right
  | stop_leftrght
  | motor_load
  | motor_fire
  deriving DecidableEq, Repr

/-- One call; `none` when an assertion fails. -/
def step : Cmd → State → Option State
  | .move_up, s => move_up s
  | .move_down, s => move_down s
  | .move_left, s => move_left s
  | .move_right, s => move_right s
  | .stop_leftrght, s => some (stop_leftrght s)
  | .motor_load, s => some (motor_load s)
  | .motor_fire, s => some (motor_fire s)

/-- A finite sequence of calls, first to last; `none` when an assertion fails. -/
def run : List Cmd → State → Option State
  | [], s => some s
  | c :: cs, s =>
    match step c s with
    | some s1 => run cs s1
    | none => none

/-- Registers with the given positions and speeds, the fire register at its middle. -/
def regs (cw180 cw360 updown leftright : Nat) : State :=
  { PWM_CW180 := cw180, PWM_CW360 := cw360, PWM_CWFIRE := kCW180_MID,
    updown_speed := updown, leftright_speed := leftright }

end Motor

namespace Camera

/-! ## Frame codec -/

theorem written_append (a b : List Op) : written (a ++ b) = written a ++ written b := by
  induction a with
  | nil => rfl
  | cons op ops ih =>
    cases op <;> simp [written, ih]

/-- C1: the bytes `send_command` writes, concatenated in write order, are
exactly `[0x56, 0x00, cmd]` followed by the argument bytes unmodified and in
order; it performs no read, so nothing is added before, between or after. -/
theorem send_command_frame (cmd : Nat) (args : List Nat) (s : State) :
    written (send_command cmd args args.length s).trace
      = written s.trace ++ ([0x56, 0x00, cmd] ++ args)
    ∧ (send_command cmd args args.length s).trace
      = s.trace ++ [Op.write [0x56, 0x00], Op.write [cmd], Op.write args] := by
  simp [send_command, serial_write, written_append, written, COMMAND_HEADER, SYNC_BYTE, SERIAL_ID]

theorem buf_set (s : State) (i j v : Nat) (h : i < s.camera_buffer.length) :
    State.buf { s with camera_buffer := s.camera_buffer.set i v } j
      = if i = j then v else s.buf j := by
  simp only [State.buf, List.getD_eq_getElem?_getD, List.getElem?_set]
  by_cases hij : i = j
  · subst hij; simp [h]
  · simp [hij]

/-- C2: `verify_response cmd` returns 1 exactly when the first four buffer
bytes are `0x76, 0x00, cmd, 0x00` (and 0 otherwise); from an accepted buffer,
changing any single one of the first four bytes to a different value makes it
return 0; buffers that agree on indices 0..3 get the same verdict. -/
theorem verify_response_iff (cmd : Nat) (s : State) :
    (verify_response cmd s = 1
        ↔ s.buf 0 = 0x76 ∧ s.buf 1 = 0x00 ∧ s.buf 2 = cmd ∧ s.buf 3 = 0x00)
    ∧ (verify_response cmd s ≠ 1 → verify_response cmd s = 0)
    ∧ (∀ i v, i < 4 → i < s.camera_buffer.length → verify_response cmd s = 1 →
        v ≠ s.buf i →
        verify_response cmd { s with camera_buffer := s.camera_buffer.set i v } = 0)
    ∧ (∀ t : State, (∀ i, i < 4 → t.buf i = s.buf i) →
        verify_response cmd t = verify_response cmd s) := by
  have key : ∀ u : State, verify_response cmd u = 1
      ↔ u.buf 0 = 0x76 ∧ u.buf 1 = 0x00 ∧ u.buf 2 = cmd ∧ u.buf 3 = 0x00 := by
    intro u
    unfold verify_response
    simp only [RESPONSE_BYTE, SERIAL_ID]
    split_ifs with h
    · simp only [zero_ne_one, false_iff]
      intro hc
      rcases hc with ⟨h0, h1, h2, h3⟩
      rcases h with h | h | h | h
      · exact h h0
      · exact h h1
      · exact h h2
      · exact h h3
    · simp only [true_iff]
      push_neg at h
      exact h
  have zero_or : ∀ u : State, verify_response cmd u ≠ 1 → verify_response cmd u = 0 := by
    intro u hu
    unfold verify_response at hu ⊢
    split_ifs with h
    · rfl
    · rw [if_neg h] at hu
      exact absurd rfl hu
  refine ⟨key s, zero_or s, ?_, ?_⟩
  · intro i v hi hlen hacc hv
    apply zero_or
    intro hc
    rw [key] at hc hacc
    rcases hacc with ⟨h0, h1, h2, h3⟩
    simp only [buf_set s i _ v hlen] at hc
    rcases hc with ⟨c0, c1, c2, c3⟩
    interval_cases i
    · simp at c0; exact hv (c0.trans h0.symm)
    · simp at c1; exact hv (c1.trans h1.symm)
    · simp at c2; exact hv (c2.trans h2.symm)
    · simp at c3; exact hv (c3.trans h3.symm)
  · intro t ht
    unfold verify_response
    rw [ht 0 (by decide), ht 1 (by decide), ht 2 (by decide), ht 3 (by decide)]

theorem verify_response_iff_witness :
    verify_response 0x26 ackState = 1
    ∧ verify_response 0x26 { ackState with camera_buffer := ackState.camera_buffer.set 2 0x27 } = 0 :=
  ⟨by decide,
   (verify_response_iff 0x26 ackState).2.2.1 2 0x27 (by decide) (by decide) (by decide)
     (by decide)⟩

/-! ## Command engine -/

theorem verify_response_append (cmd : Nat) (s : State) (g rest : List Nat)
    (h : s.camera_buffer = g ++ rest) (hg : 4 ≤ g.length) :
    verify_response cmd s = if g.take 4 = [0x76, 0x00, cmd, 0x00] then 1 else 0 := by
  rcases g with _ | ⟨x0, _ | ⟨x1, _ | ⟨x2, _ | ⟨x3, tl⟩⟩⟩⟩ <;> simp at hg
  simp [verify_response, State.buf, h, RESPONSE_BYTE, SERIAL_ID]
  by_cases h0 : x0 = 118 <;> by_cases h1 : x1 = 0 <;> by_cases h2 : x2 = cmd <;>
    by_cases h3 : x3 = 0 <;> simp [h0, h1, h2, h3]

theorem read_response_spec (numbytes timeout : Nat) (s : State)
    (h : numbytes ≤ CAMERA_BUFFER_SIZE) :
    ∃ s1, read_response numbytes timeout s
        = .ret ((s.rx.headD []).take numbytes).length s1
      ∧ s1.camera_buffer = (s.rx.headD []).take numbytes
          ++ s.camera_buffer.drop ((s.rx.headD []).take numbytes).length
      ∧ s1.buffer_length = ((s.rx.headD []).take numbytes).length
      ∧ s1.frame_ptr = s.frame_ptr
      ∧ s1.rx = s.rx.tail
      ∧ s1.trace = s.trace ++ [Op.read numbytes STD_WAIT ((s.rx.headD []).take numbytes)] := by
  have hlen : ((s.rx.headD []).take numbytes).length % 256
      = ((s.rx.headD []).take numbytes).length := by
    apply Nat.mod_eq_of_lt
    have := List.length_take_le numbytes (s.rx.headD [])
    simp only [CAMERA_BUFFER_SIZE] at h
    omega
  simp only [read_response, if_pos h, serial_read_timeout, hlen]
  exact ⟨_, rfl, rfl, rfl, rfl, rfl, rfl⟩

theorem send_command_spec (cmd : Nat) (args : List Nat) (alen : Nat) (s : State) :
    (send_command cmd args alen s).camera_buffer = s.camera_buffer
    ∧ (send_command cmd args alen s).buffer_length = s.buffer_length
    ∧ (send_command cmd args alen s).frame_ptr = s.frame_ptr
    ∧ (send_command cmd args alen s).rx = s.rx
    ∧ (send_command cmd args alen s).trace
        = s.trace ++ [Op.write [0x56, 0x00], Op.write [cmd], Op.write (args.take alen)] := by
  simp [send_command, serial_write, COMMAND_HEADER, SYNC_BYTE, SERIAL_ID]

theorem run_command_spec (cmd : Nat) (args : List Nat) (alen L : Nat) (flush : Int) (s : State)
    (h100 : L ≤ CAMERA_BUFFER_SIZE) :
    ∃ s3 rest, run_command cmd args alen L flush s
        = .ret (if ((response_offer flush s).take L).length = L ∧ verify_response cmd s3 ≠ 0
                then 1 else 0) s3
      ∧ s3.camera_buffer = (response_offer flush s).take L ++ rest
      ∧ s3.buffer_length = ((response_offer flush s).take L).length
      ∧ s3.frame_ptr = s.frame_ptr
      ∧ s3.rx = (if flush ≠ 0 then s.rx.tail.tail else s.rx.tail)
      ∧ written s3.trace = written s.trace ++ ([0x56, 0x00, cmd] ++ args.take alen) := by
  have step : ∀ s1 : State, ∃ s3 rest,
      ((fun (_ : Nat) (s1 : State) =>
        (read_response L (STD_WAIT % 256) (send_command cmd args alen s1)).bind
          fun received_response_length s3 =>
            if received_response_length ≠ L then Outcome.ret (0 : Int) s3
            else if verify_response cmd s3 = 0 then Outcome.ret 0 s3
            else Outcome.ret 1 s3) 0 s1)
        = .ret (if ((s1.rx.headD []).take L).length = L ∧ verify_response cmd s3 ≠ 0
                then 1 else 0) s3
      ∧ s3.camera_buffer = (s1.rx.headD []).take L ++ rest
      ∧ s3.buffer_length = ((s1.rx.headD []).take L).length
      ∧ s3.frame_ptr = s1.frame_ptr
      ∧ s3.rx = s1.rx.tail
      ∧ written s3.trace = written s1.trace ++ ([0x56, 0x00, cmd] ++ args.take alen) := by
    intro s1
    obtain ⟨hb, hl, hf, hr, ht⟩ := send_command_spec cmd args alen s1
    obtain ⟨s3, e3, b3, l3, f3, r3, t3⟩ :=
      read_response_spec L (STD_WAIT % 256) (send_command cmd args alen s1) h100
    rw [hr] at e3 b3 l3 r3 t3
    refine ⟨s3, _, ?_, b3, l3, f3.trans hf, r3, ?_⟩
    · simp only [e3, Outcome.bind]
      by_cases hlen : ((s1.rx.headD []).take L).length = L
      · by_cases hv : verify_response cmd s3 = 0
        · rw [if_neg (not_not.mpr hlen), if_pos hv, if_neg (fun hc => hc.2 hv)]
        · rw [if_neg (not_not.mpr hlen), if_neg hv, if_pos ⟨hlen, hv⟩]
      · rw [if_pos hlen, if_neg (fun hc => hlen hc.1)]
    · rw [t3, ht]
      simp [written_append, written]
  unfold run_command response_offer
  by_cases hfl : flush = 0
  · simp only [hfl, ne_eq, not_true_eq_false, if_false, Outcome.bind]
    exact step s
  · obtain ⟨s1, e1, b1, l1, f1, r1, t1⟩ := read_response_spec CAMERA_BUFFER_SIZE 10 s (le_refl _)
    obtain ⟨s3, rest, e3, b3, l3, f3, r3, t3⟩ := step s1
    rw [r1] at e3 b3 l3 r3
    rw [t1] at t3
    refine ⟨s3, rest, ?_, ?_, ?_, f3.trans f1, ?_, ?_⟩
    · simp only [ne_eq, hfl, not_false_eq_true, if_true, e1, Outcome.bind]
      exact e3
    · simpa [hfl] using b3
    · simpa [hfl] using l3
    · simpa [hfl] using r3
    · simpa [written_append, written] using t3

theorem run_command_header (cmd : Nat) (args : List Nat) (alen L : Nat) (flush : Int)
    (s : State) (h4 : 4 ≤ L) (h100 : L ≤ CAMERA_BUFFER_SIZE) :
    ∃ s3 rest, run_command cmd args alen L flush s
        = .ret (if ((response_offer flush s).take L).length = L
                  ∧ ((response_offer flush s).take L).take 4 = [0x76, 0x00, cmd, 0x00]
                then 1 else 0) s3
      ∧ s3.camera_buffer = (response_offer flush s).take L ++ rest
      ∧ s3.buffer_length = ((response_offer flush s).take L).length
      ∧ s3.frame_ptr = s.frame_ptr
      ∧ s3.rx = (if flush ≠ 0 then s.rx.tail.tail else s.rx.tail)
      ∧ written s3.trace = written s.trace ++ ([0x56, 0x00, cmd] ++ args.take alen) := by
  obtain ⟨s3, rest, e3, b3, l3, f3, r3, t3⟩ := run_command_spec cmd args alen L flush s h100
  refine ⟨s3, rest, ?_, b3, l3, f3, r3, t3⟩
  rw [e3]
  by_cases hlen : ((response_offer flush s).take L).length = L
  · have hv := verify_response_append cmd s3 _ rest b3 (by omega)
    by_cases hh : ((response_offer flush s).take L).take 4 = [0x76, 0x00, cmd, 0x00]
    · rw [if_pos hh] at hv
      rw [if_pos ⟨hlen, by rw [hv]; decide⟩, if_pos ⟨hlen, hh⟩]
    · rw [if_neg hh] at hv
      rw [if_neg (fun hc => hc.2 hv), if_neg (fun hc => hh hc.2)]
  · rw [if_neg (fun hc => hlen hc.1), if_neg (fun hc => hlen hc.1)]

/-- C3: for an expected length `L` with `4 <= L <= 100`, `run_command` returns, and
it returns 1 exactly when the response read delivers `L` bytes whose first four
are `0x76, 0x00, cmd, 0x00`, and 0 otherwise; so it returns 0 for every
received count below `L`, and any state with the same bytes on offer to the
response read (whatever its buffer content or drain delivery) gets the same
verdict. -/
theorem run_command_verdict (cmd : Nat) (args : List Nat) (alen L : Nat) (flush : Int)
    (s : State) (h4 : 4 ≤ L) (h100 : L ≤ 100) :
    ∃ v s3, run_command cmd args alen L flush s = .ret v s3
      ∧ (v = 1 ↔ ((response_offer flush s).take L).length = L
                  ∧ ((response_offer flush s).take L).take 4 = [0x76, 0x00, cmd, 0x00])
      ∧ (v ≠ 1 → v = 0)
      ∧ (((response_offer flush s).take L).length < L → v = 0)
      ∧ (∀ t : State, response_offer flush t = response_offer flush s →
          (run_command cmd args alen L flush t).val? = some v) := by
  obtain ⟨s3, rest, e3, -⟩ := run_command_header cmd args alen L flush s h4 h100
  refine ⟨_, s3, e3, ?_, ?_, ?_, ?_⟩
  · split_ifs with h
    · simp only [true_iff]; exact h
    · simp only [zero_ne_one, false_iff]; exact h
  · intro hv
    split_ifs with h
    · rw [if_pos h] at hv; exact absurd rfl hv
    · rfl
  · intro hlt
    rw [if_neg (fun hc => by omega)]
  · intro t ht
    obtain ⟨t3, _, et, -⟩ := run_command_header cmd args alen L flush t h4 h100
    rw [et, ht]
    rfl

theorem run_command_verdict_witness :
    4 ≤ 5 ∧ 5 ≤ 100
    ∧ (run_command 0x26 [0x00] 1 5 1
        (initState [[0xAA, 0xBB], [0x76, 0x00, 0x26, 0x00, 0x07]])).val? = some 1 := by
  refine ⟨by decide, by decide, ?_⟩
  obtain ⟨v, s3, e, hiff, -⟩ := run_command_verdict 0x26 [0x00] 1 5 1
    (initState [[0xAA, 0xBB], [0x76, 0x00, 0x26, 0x00, 0x07]]) (by decide) (by decide)
  rw [e, hiff.mpr (by decide)]
  rfl

/-! ## Chunked frame transfer -/

theorem read_picture_spec (n : Nat) (s : State) :
    written (read_picture n s).state.trace
        = written s.trace ++ ([0x56, 0x00, 0x32] ++ read_fbuf_args s.frame_ptr n)
    ∧ (¬ ack_ok s → ∃ s1, read_picture n s = .ret Ptr.null s1 ∧ s1.frame_ptr = s.frame_ptr)
    ∧ (ack_ok s → 100 < (n + 5) % 256 →
        ∃ s1, read_picture n s = .assert_fail s1 ∧ s1.frame_ptr = s.frame_ptr)
    ∧ (ack_ok s → (n + 5) % 256 ≤ 100 → payload_bytes n s = [] →
        ∃ s2, read_picture n s = .ret Ptr.null s2 ∧ s2.frame_ptr = s.frame_ptr
          ∧ s2.buffer_length = 0)
    ∧ (ack_ok s → (n + 5) % 256 ≤ 100 → payload_bytes n s ≠ [] →
        ∃ s2 rest, read_picture n s = .ret Ptr.camera_buffer s2
          ∧ s2.frame_ptr = (s.frame_ptr + n) % 65536
          ∧ s2.buffer_length = (payload_bytes n s).length
          ∧ s2.camera_buffer = payload_bytes n s ++ rest
          ∧ s2.rx = s.rx.tail.tail) := by
  obtain ⟨s1, rest1, e1, b1, l1, f1, r1, t1⟩ :=
    run_command_header COMMAND_READ_FBUF (read_fbuf_args s.frame_ptr n)
      (read_fbuf_args s.frame_ptr n).length 5 0 s (by decide) (by decide)
  have hoff : (response_offer 0 s).take 5 = ack_bytes s := by
    simp [response_offer, ack_bytes]
  rw [hoff] at e1
  simp only [List.take_length, COMMAND_READ_FBUF, ne_eq, not_true_eq_false, if_false] at t1 r1
  have hun : read_picture n s
      = (Outcome.ret (if ack_ok s then (1 : Int) else 0) s1).bind fun response s1 =>
          if response = 0 then .ret Ptr.null s1
          else
            (read_response ((n + 5) % 256) CAMERADELAY s1).bind fun response s2 =>
              if response = 0 then .ret Ptr.null s2
              else .ret Ptr.camera_buffer { s2 with frame_ptr := (s2.frame_ptr + n) % 65536 } := by
    have e1b : run_command COMMAND_READ_FBUF (read_fbuf_args s.frame_ptr n)
        (read_fbuf_args s.frame_ptr n).length 5 0 s
          = Outcome.ret (if ack_ok s then (1 : Int) else 0) s1 := e1
    rw [← e1b]; rfl
  by_cases hack : ack_ok s
  · rw [if_pos hack] at hun
    simp only [Outcome.bind, one_ne_zero, if_false] at hun
    by_cases hm : (n + 5) % 256 ≤ 100
    · obtain ⟨s2, e2, b2, l2, f2, r2, t2⟩ :=
        read_response_spec ((n + 5) % 256) CAMERADELAY s1 hm
      rw [r1] at e2 b2 l2 r2 t2
      rw [e2] at hun
      simp only [] at hun
      have hpay : (s.rx.tail.headD []).take ((n + 5) % 256) = payload_bytes n s := rfl
      rw [hpay] at hun b2 l2 t2
      by_cases hp : payload_bytes n s = []
      · rw [hp] at hun l2
        simp only [List.length_nil, if_true] at hun
        rw [hun]
        refine ⟨?_, fun h => absurd hack h, fun _ h => absurd hm (by omega), ?_, ?_⟩
        · simp [Outcome.state, t2, written_append, written, t1]
        · intro _ _ _
          exact ⟨s2, rfl, f2.trans f1, l2⟩
        · intro _ _ h
          exact absurd hp h
      · have hne : (payload_bytes n s).length ≠ 0 := by
          intro hc
          exact hp (List.length_eq_zero.mp hc)
        rw [if_neg hne] at hun
        rw [hun]
        refine ⟨?_, fun h => absurd hack h, fun _ h => absurd hm (by omega), ?_, ?_⟩
        · simp [Outcome.state, t2, written_append, written, t1]
        · intro _ _ h
          exact absurd h hp
        · intro _ _ _
          exact ⟨_, _, rfl, by simp only [f2, f1], l2, b2, r2⟩
    · have e2 : read_response ((n + 5) % 256) CAMERADELAY s1 = .assert_fail s1 := by
        unfold read_response
        rw [if_neg (show ¬ (n + 5) % 256 ≤ CAMERA_BUFFER_SIZE from hm)]
      rw [e2] at hun
      rw [hun]
      refine ⟨?_, fun h => absurd hack h, ?_, fun _ h => absurd h hm, fun _ h => absurd h hm⟩
      · simp [Outcome.state, t1]
      · intro _ _
        exact ⟨s1, rfl, f1⟩
  · rw [if_neg hack] at hun
    simp only [Outcome.bind, if_true] at hun
    rw [hun]
    refine ⟨?_, ?_, fun h => absurd h hack, fun h => absurd h hack, fun h => absurd h hack⟩
    · simp [Outcome.state, t1]
    · intro _
      exact ⟨s1, rfl, f1⟩

theorem read_picture_ret (n : Nat) (s : State) (p : Ptr) (s1 : State)
    (h : read_picture n s = .ret p s1) :
    (p = Ptr.null → s1.frame_ptr = s.frame_ptr ∧ (¬ ack_ok s ∨ payload_bytes n s = []))
    ∧ (p = Ptr.camera_buffer →
        s1.frame_ptr = (s.frame_ptr + n) % 65536 ∧ ack_ok s ∧ (n + 5) % 256 ≤ 100
        ∧ payload_bytes n s ≠ [] ∧ s1.buffer_length = (payload_bytes n s).length
        ∧ s1.camera_buffer.take s1.buffer_length = payload_bytes n s
        ∧ s1.rx = s.rx.tail.tail) := by
  obtain ⟨-, c1, c2, c3, c4⟩ := read_picture_spec n s
  by_cases hack : ack_ok s
  · by_cases hm : (n + 5) % 256 ≤ 100
    · by_cases hp : payload_bytes n s = []
      · obtain ⟨s2, e2, f2, -⟩ := c3 hack hm hp
        rw [e2] at h
        injection h with hv hs
        subst hv; subst hs
        exact ⟨fun _ => ⟨f2, Or.inr hp⟩, fun hc => by cases hc⟩
      · obtain ⟨s2, rest, e2, f2, l2, b2, r2⟩ := c4 hack hm hp
        rw [e2] at h
        injection h with hv hs
        subst hv; subst hs
        refine ⟨fun hc => (by cases hc), fun _ => ⟨f2, hack, hm, hp, l2, ?_, r2⟩⟩
        rw [l2, b2, List.take_left]
    · obtain ⟨s2, e2, -⟩ := c2 hack (by omega)
      rw [e2] at h
      cases h
  · obtain ⟨s2, e2, f2⟩ := c1 hack
    rw [e2] at h
    injection h with hv hs
    subst hv; subst hs
    exact ⟨fun _ => ⟨f2, Or.inl hack⟩, fun hc => by cases hc⟩

theorem read_picture_times_succ (c k : Nat) (s s2 : State)
    (h : read_picture_times c (k + 1) s = some s2) :
    ∃ s1, read_picture c s = .ret Ptr.camera_buffer s1 ∧ read_picture_times c k s1 = some s2 := by
  unfold read_picture_times at h
  split at h
  · next s1 heq => exact ⟨s1, heq, h⟩
  · cases h

theorem read_picture_times_frame_ptr (c : Nat) :
    ∀ (N : Nat) (s s1 : State), read_picture_times c N s = some s1 →
      s1.frame_ptr = (s.frame_ptr + N * c) % 65536 ∨ (N = 0 ∧ s1 = s) := by
  intro N
  induction N with
  | zero =>
    intro s s1 h
    simp only [read_picture_times, Option.some.injEq] at h
    exact Or.inr ⟨rfl, h.symm⟩
  | succ k ih =>
    intro s s2 h
    obtain ⟨s1, e1, h1⟩ := read_picture_times_succ c k s s2 h
    have f1 := ((read_picture_ret c s _ s1 e1).2 rfl).1
    left
    rcases ih s1 s2 h1 with h2 | ⟨hk, hs⟩
    · rw [h2, f1, Nat.add_mod, Nat.mod_mod, ← Nat.add_mod]
      congr 1
      ring
    · subst hk; subst hs
      rw [f1]
      simp

theorem read_picture_times_script (c : Nat) (pay : List Nat) (hc : (c + 5) % 256 ≤ 100)
    (hp : pay.take ((c + 5) % 256) ≠ []) :
    ∀ (N : Nat) (s : State), s.rx = chunk_script fbuf_ack pay N →
      ∃ s1, read_picture_times c N s = some s1 := by
  intro N
  induction N with
  | zero =>
    intro s _
    exact ⟨s, rfl⟩
  | succ k ih =>
    intro s hrx
    have hack : ack_ok s := by
      simp [ack_ok, ack_bytes, hrx, chunk_script, fbuf_ack]
    have hpay : payload_bytes c s ≠ [] := by
      simpa [payload_bytes, hrx, chunk_script] using hp
    obtain ⟨s1, _, e1, -, -, -, r1⟩ := (read_picture_spec c s).2.2.2.2 hack hc hpay
    have hrx1 : s1.rx = chunk_script fbuf_ack pay k := by
      rw [r1, hrx]
      rfl
    obtain ⟨s2, e2⟩ := ih s1 hrx1
    refine ⟨s2, ?_⟩
    unfold read_picture_times
    rw [e1]
    exact e2

/-- C4 (amended): after `N` consecutive successful `read_picture(c)` calls
starting from `frame_ptr = 0`, the 16-bit `frame_ptr` equals `N*c` modulo
`2^16`; it equals `N*c` itself whenever `N*c < 2^16`. -/
theorem chunk_reads_frame_ptr (c N : Nat) (s s1 : State)
    (h0 : s.frame_ptr = 0) (h : read_picture_times c N s = some s1) :
    s1.frame_ptr = (N * c) % 65536 ∧ (N * c < 65536 → s1.frame_ptr = N * c) := by
  have key : s1.frame_ptr = (N * c) % 65536 := by
    rcases read_picture_times_frame_ptr c N s s1 h with h1 | ⟨hN, hs⟩
    · rw [h1, h0, Nat.zero_add]
    · subst hN; subst hs
      rw [h0]
      simp
  exact ⟨key, fun hlt => by rw [key, Nat.mod_eq_of_lt hlt]⟩

theorem chunk_reads_frame_ptr_witness :
    (initState (chunk_script fbuf_ack (List.replicate 69 0xD8) 2)).frame_ptr = 0
    ∧ ∃ s1, read_picture_times 64 2
          (initState (chunk_script fbuf_ack (List.replicate 69 0xD8) 2)) = some s1
        ∧ s1.frame_ptr = 128 := by
  refine ⟨rfl, ?_⟩
  cases h : read_picture_times 64 2
      (initState (chunk_script fbuf_ack (List.replicate 69 0xD8) 2)) with
  | none => exact absurd h (by decide)
  | some s1 =>
    exact ⟨s1, rfl, (chunk_reads_frame_ptr 64 2 _ s1 rfl h).2 (by decide)⟩

/-- C4 (as stated) fails: 1024 successful calls `read_picture(64)` from
`frame_ptr = 0` leave `frame_ptr = 0`, not `1024 * 64 = 65536`. -/
theorem frame_ptr_wraps_after_1024_chunks :
    (initState (chunk_script fbuf_ack (List.replicate 69 0xD8) 1024)).frame_ptr = 0
    ∧ ∃ s1, read_picture_times 64 1024
          (initState (chunk_script fbuf_ack (List.replicate 69 0xD8) 1024)) = some s1
        ∧ s1.frame_ptr = 0 ∧ s1.frame_ptr ≠ 1024 * 64 := by
  refine ⟨rfl, ?_⟩
  obtain ⟨s1, h⟩ := read_picture_times_script 64 (List.replicate 69 0xD8) (by decide)
    (by decide) 1024 (initState (chunk_script fbuf_ack (List.replicate 69 0xD8) 1024)) rfl
  have hfp : s1.frame_ptr = 0 := by
    rcases read_picture_times_frame_ptr 64 1024 _ s1 h with h1 | ⟨hN, -⟩
    · rw [h1]; rfl
    · exact absurd hN (by decide)
  exact ⟨s1, h, hfp, by rw [hfp]; decide⟩

theorem read_fbuf_args_eq (fp n : Nat) (hfp : fp < 65536) (hn : n < 256) :
    read_fbuf_args fp n
      = [0x0C, 0x00, 0x0A, 0x00, 0x00, fp / 256, fp % 256, 0x00, 0x00, 0x00, n, 0x00, 0x0A] := by
  have hhi : (fp >>> 8) % 256 = fp / 256 := by
    rw [Nat.shiftRight_eq_div_pow]
    apply Nat.mod_eq_of_lt
    norm_num
    omega
  have hlo : (fp &&& 0xFF) % 256 = fp % 256 := by
    have h := Nat.and_pow_two_sub_one_eq_mod fp 8
    norm_num at h
    rw [h, Nat.mod_mod]
  have hd1 : (CAMERADELAY >>> 8) % 256 = 0 := by decide
  have hd2 : (CAMERADELAY &&& 0xFF) % 256 = 0x0A := by decide
  unfold read_fbuf_args
  rw [hhi, hlo, hd1, hd2, Nat.mod_eq_of_lt hn]

/-- C5: with `frame_ptr` a 16-bit value and `n` a byte, the bytes
`read_picture(n)` writes are exactly
`[0x56,0x00,0x32,0x0C,0x00,0x0A,0x00,0x00,hi,lo,0x00,0x00,0x00,n,0x00,0x0A]`
with `256*hi + lo = frame_ptr`; after one successful `read_picture(64)` from
`frame_ptr = 0`, the next `read_picture(64)` sends the start address `0x00, 0x40`. -/
theorem read_picture_command_bytes (s : State) (hfp : s.frame_ptr < 65536) :
    (∀ n, n < 256 → ∃ hi lo, hi < 256 ∧ lo < 256 ∧ 256 * hi + lo = s.frame_ptr
        ∧ written (read_picture n s).state.trace
            = written s.trace ++ [0x56, 0x00, 0x32, 0x0C, 0x00, 0x0A, 0x00, 0x00, hi, lo,
                                  0x00, 0x00, 0x00, n, 0x00, 0x0A])
    ∧ (s.frame_ptr = 0 → ∀ s1, read_picture 64 s = .ret Ptr.camera_buffer s1 →
        written (read_picture 64 s1).state.trace
            = written s1.trace ++ [0x56, 0x00, 0x32, 0x0C, 0x00, 0x0A, 0x00, 0x00, 0x00, 0x40,
                                   0x00, 0x00, 0x00, 64, 0x00, 0x0A]) := by
  constructor
  · intro n hn
    refine ⟨s.frame_ptr / 256, s.frame_ptr % 256, by omega, by omega, by omega, ?_⟩
    rw [(read_picture_spec n s).1, read_fbuf_args_eq _ _ hfp hn]
    rfl
  · intro h0 s1 h1
    have f1 := ((read_picture_ret 64 s _ s1 h1).2 rfl).1
    rw [h0] at f1
    rw [(read_picture_spec 64 s1).1, f1]
    rfl

theorem read_picture_command_bytes_witness :
    (initState [fbuf_ack, List.replicate 69 0xD8]).frame_ptr < 65536
    ∧ written (read_picture 64 (initState [fbuf_ack, List.replicate 69 0xD8])).state.trace
        = [0x56, 0x00, 0x32, 0x0C, 0x00, 0x0A, 0x00, 0x00, 0x00, 0x00,
           0x00, 0x00, 0x00, 64, 0x00, 0x0A] := by
  refine ⟨by decide, ?_⟩
  obtain ⟨hi, lo, -, -, hsum, hw⟩ :=
    (read_picture_command_bytes (initState [fbuf_ack, List.replicate 69 0xD8]) (by decide)).1 64
      (by decide)
  have h0 : (initState [fbuf_ack, List.replicate 69 0xD8]).frame_ptr = 0 := rfl
  rw [h0] at hsum
  have hhi : hi = 0 := by omega
  have hlo : lo = 0 := by omega
  rw [hw, hhi, hlo]
  rfl

/-- C6: evaluation at the failing input. With a valid acknowledgment and a
payload read that delivers a single byte, `read_picture(64)` returns
`camera_buffer` (success) with `buffer_length = 1`, not `64 + 5`, and advances
`frame_ptr` by 64: a short payload read is not reported as a failure. -/
theorem read_picture_accepts_short_payload :
    (payload_bytes 64 (initState [fbuf_ack, [0xFF]])).length = 1
    ∧ (read_picture 64 (initState [fbuf_ack, [0xFF]])).val? = some Ptr.camera_buffer
    ∧ (read_picture 64 (initState [fbuf_ack, [0xFF]])).state.buffer_length = 1
    ∧ (read_picture 64 (initState [fbuf_ack, [0xFF]])).state.frame_ptr = 64 := by
  decide

/-- What the payload read of `read_picture` guarantees for a chunk size
`n <= 95`: the call returns, it reports failure whenever the payload read
delivers no byte, and every successful call leaves exactly the bytes that the
payload read delivered at the start of the receive buffer, `buffer_length`
being their count, which lies between 1 and `n+5`. -/
theorem read_picture_payload_count (n : Nat) (s : State) (hn : n ≤ 95) :
    (∃ p s1, read_picture n s = .ret p s1)
    ∧ (payload_bytes n s = [] → ∃ s1, read_picture n s = .ret Ptr.null s1)
    ∧ (∀ s1, read_picture n s = .ret Ptr.camera_buffer s1 →
        s1.buffer_length = (payload_bytes n s).length
        ∧ 1 ≤ s1.buffer_length ∧ s1.buffer_length ≤ n + 5
        ∧ s1.camera_buffer.take s1.buffer_length = payload_bytes n s) := by
  have hm : (n + 5) % 256 = n + 5 := Nat.mod_eq_of_lt (by omega)
  have hm100 : (n + 5) % 256 ≤ 100 := by omega
  obtain ⟨-, c1, -, c3, c4⟩ := read_picture_spec n s
  refine ⟨?_, ?_, ?_⟩
  · by_cases hack : ack_ok s
    · by_cases hp : payload_bytes n s = []
      · obtain ⟨s2, e2, -⟩ := c3 hack hm100 hp
        exact ⟨_, s2, e2⟩
      · obtain ⟨s2, _, e2, -⟩ := c4 hack hm100 hp
        exact ⟨_, s2, e2⟩
    · obtain ⟨s1, e1, -⟩ := c1 hack
      exact ⟨_, s1, e1⟩
  · intro hp
    by_cases hack : ack_ok s
    · obtain ⟨s2, e2, -⟩ := c3 hack hm100 hp
      exact ⟨s2, e2⟩
    · obtain ⟨s1, e1, -⟩ := c1 hack
      exact ⟨s1, e1⟩
  · intro s1 h1
    obtain ⟨-, -, -, hp, hl, hb, -⟩ := (read_picture_ret n s _ s1 h1).2 rfl
    refine ⟨hl, ?_, ?_, hb⟩
    · rw [hl]
      exact List.length_pos.mpr hp
    · rw [hl]
      have := List.length_take_le ((n + 5) % 256) (s.rx.tail.headD [])
      unfold payload_bytes
      omega

theorem read_picture_payload_count_witness :
    64 ≤ 95
    ∧ (∃ s1, read_picture 64 (initState [fbuf_ack, []]) = .ret Ptr.null s1)
    ∧ (∃ p s1, read_picture 64 (initState [fbuf_ack, [0xFF, 0xD8]]) = .ret p s1) :=
  ⟨by decide,
   (read_picture_payload_count 64 (initState [fbuf_ack, []]) (by decide)).2.1 (by decide),
   (read_picture_payload_count 64 (initState [fbuf_ack, [0xFF, 0xD8]]) (by decide)).1⟩

/-- C7: whenever `read_picture(n)` reports failure (which happens exactly with
a short or malformed acknowledgment or an empty payload read), `frame_ptr`
is unchanged; whenever it reports success, `frame_ptr` afterwards is
`(frame_ptr + n) mod 2^16`. The call does return whenever its payload request
`(n + 5) mod 256` respects the buffer size. -/
theorem read_picture_frame_ptr_update (n : Nat) (s : State) :
    (∀ p s1, read_picture n s = .ret p s1 →
        (p = Ptr.null → s1.frame_ptr = s.frame_ptr ∧ (¬ ack_ok s ∨ payload_bytes n s = []))
        ∧ (p = Ptr.camera_buffer → s1.frame_ptr = (s.frame_ptr + n) % 65536))
    ∧ ((n + 5) % 256 ≤ 100 → ∃ p s1, read_picture n s = .ret p s1) := by
  constructor
  · intro p s1 h
    obtain ⟨hnull, hbuf⟩ := read_picture_ret n s p s1 h
    exact ⟨hnull, fun hp => (hbuf hp).1⟩
  · intro hm100
    obtain ⟨-, c1, -, c3, c4⟩ := read_picture_spec n s
    by_cases hack : ack_ok s
    · by_cases hp : payload_bytes n s = []
      · obtain ⟨s2, e2, -⟩ := c3 hack hm100 hp
        exact ⟨_, s2, e2⟩
      · obtain ⟨s2, _, e2, -⟩ := c4 hack hm100 hp
        exact ⟨_, s2, e2⟩
    · obtain ⟨s1, e1, -⟩ := c1 hack
      exact ⟨_, s1, e1⟩

theorem read_picture_frame_ptr_update_witness :
    (∃ s1, read_picture 64 (camState 65500 [fbuf_ack, List.replicate 69 0xD8])
              = .ret Ptr.camera_buffer s1 ∧ s1.frame_ptr = 28)
    ∧ (∃ s1, read_picture 64 (camState 65500 [[0x76, 0x00], List.replicate 69 0xD8])
              = .ret Ptr.null s1 ∧ s1.frame_ptr = 65500) := by
  constructor
  · obtain ⟨hret, htot⟩ :=
      read_picture_frame_ptr_update 64 (camState 65500 [fbuf_ack, List.replicate 69 0xD8])
    obtain ⟨p, s1, e⟩ := htot (by decide)
    have hv : (read_picture 64 (camState 65500 [fbuf_ack, List.replicate 69 0xD8])).val?
        = some Ptr.camera_buffer := by decide
    rw [e] at hv
    have hp : p = Ptr.camera_buffer := by simpa [Outcome.val?] using hv
    subst hp
    exact ⟨s1, e, (hret _ s1 e).2 rfl⟩
  · obtain ⟨hret, htot⟩ :=
      read_picture_frame_ptr_update 64 (camState 65500 [[0x76, 0x00], List.replicate 69 0xD8])
    obtain ⟨p, s1, e⟩ := htot (by decide)
    have hv : (read_picture 64 (camState 65500 [[0x76, 0x00], List.replicate 69 0xD8])).val?
        = some Ptr.null := by decide
    rw [e] at hv
    have hp : p = Ptr.null := by simpa [Outcome.val?] using hv
    subst hp
    exact ⟨s1, e, ((hret _ s1 e).1 rfl).1⟩

/-! ## Capture control -/

theorem camera_frame_buff_ctrl_spec (command : Nat) (s : State) :
    ∃ v s1, camera_frame_buff_ctrl command s = .ret v s1
      ∧ s1.frame_ptr = s.frame_ptr ∧ (v = 0 ∨ v = 1) := by
  obtain ⟨s3, _, e3, -, -, f3, -⟩ :=
    run_command_header COMMAND_FBUF_CTRL [0x1, command] 2 5 1 s (by decide) (by decide)
  refine ⟨_, s3, e3, f3, ?_⟩
  split_ifs
  · exact Or.inr rfl
  · exact Or.inl rfl

/-- C8 (as stated) fails: from `frame_ptr = 128` with a silent device,
`take_picture` and `resume_picture` return 0 and leave `frame_ptr = 0`. -/
theorem capture_failure_resets_frame_ptr :
    (camState 128 []).frame_ptr = 128
    ∧ (take_picture (camState 128 [])).val? = some 0
    ∧ (take_picture (camState 128 [])).state.frame_ptr = 0
    ∧ (resume_picture (camState 128 [])).val? = some 0
    ∧ (resume_picture (camState 128 [])).state.frame_ptr = 0 := by
  decide

/-- C8 (amended): `take_picture` and `resume_picture` always return, and when
they report failure `frame_ptr` equals 0 afterwards, so it equals its prior
value exactly when that value was 0. -/
theorem capture_failure_frame_ptr (s : State) :
    (∃ v s1, take_picture s = .ret v s1)
    ∧ (∃ v s1, resume_picture s = .ret v s1)
    ∧ (∀ s1, take_picture s = .ret 0 s1 →
        s1.frame_ptr = 0 ∧ (s1.frame_ptr = s.frame_ptr ↔ s.frame_ptr = 0))
    ∧ (∀ s1, resume_picture s = .ret 0 s1 →
        s1.frame_ptr = 0 ∧ (s1.frame_ptr = s.frame_ptr ↔ s.frame_ptr = 0)) := by
  obtain ⟨v, s1, e, f, -⟩ :=
    camera_frame_buff_ctrl_spec COMMAND_STOPCURRENTFRAME { s with frame_ptr := 0 }
  obtain ⟨w, s2, e2, f2, -⟩ :=
    camera_frame_buff_ctrl_spec COMMAND_RESUMEFRAME { s with frame_ptr := 0 }
  refine ⟨⟨v, s1, e⟩, ⟨w, s2, e2⟩, ?_, ?_⟩
  · intro t ht
    unfold take_picture at ht
    rw [e] at ht
    injection ht with _ hs
    subst hs
    refine ⟨f, ?_⟩
    rw [f]
    exact eq_comm
  · intro t ht
    unfold resume_picture at ht
    rw [e2] at ht
    injection ht with _ hs
    subst hs
    refine ⟨f2, ?_⟩
    rw [f2]
    exact eq_comm

theorem capture_failure_frame_ptr_witness :
    ∃ s1, take_picture (camState 128 [[], [0x76, 0x00, 0x36]]) = .ret 0 s1
      ∧ s1.frame_ptr = 0 := by
  obtain ⟨⟨v, s1, e⟩, -, h, -⟩ :=
    capture_failure_frame_ptr (camState 128 [[], [0x76, 0x00, 0x36]])
  have hv : (take_picture (camState 128 [[], [0x76, 0x00, 0x36]])).val? = some 0 := by decide
  rw [e] at hv
  have hz : v = 0 := by simpa [Outcome.val?] using hv
  subst hz
  exact ⟨s1, e, (h s1 e).1⟩

/-- C9: whatever `frame_ptr` was before, whenever `take_picture` or
`resume_picture` returns 1, `frame_ptr` equals 0 afterwards. -/
theorem capture_success_frame_ptr (s s1 : State)
    (h : take_picture s = .ret 1 s1 ∨ resume_picture s = .ret 1 s1) :
    s1.frame_ptr = 0 := by
  rcases h with h | h
  · obtain ⟨v, t, e, f, -⟩ :=
      camera_frame_buff_ctrl_spec COMMAND_STOPCURRENTFRAME { s with frame_ptr := 0 }
    unfold take_picture at h
    rw [e] at h
    injection h with _ hs
    subst hs
    exact f
  · obtain ⟨v, t, e, f, -⟩ :=
      camera_frame_buff_ctrl_spec COMMAND_RESUMEFRAME { s with frame_ptr := 0 }
    unfold resume_picture at h
    rw [e] at h
    injection h with _ hs
    subst hs
    exact f

theorem capture_success_frame_ptr_witness :
    (camState 128 [[0x00], [0x76, 0x00, 0x36, 0x00, 0x00]]).frame_ptr = 128
    ∧ (∃ s1, take_picture (camState 128 [[0x00], [0x76, 0x00, 0x36, 0x00, 0x00]]) = .ret 1 s1
        ∧ s1.frame_ptr = 0)
    ∧ (∃ s1, resume_picture (camState 128 [[0x00], [0x76, 0x00, 0x36, 0x00, 0x00]]) = .ret 1 s1
        ∧ s1.frame_ptr = 0) := by
  refine ⟨rfl, ?_, ?_⟩
  · have hv : (take_picture (camState 128 [[0x00], [0x76, 0x00, 0x36, 0x00, 0x00]])).val?
        = some 1 := by decide
    cases h : take_picture (camState 128 [[0x00], [0x76, 0x00, 0x36, 0x00, 0x00]]) with
    | assert_fail s1 => rw [h] at hv; cases hv
    | ret v s1 =>
      rw [h] at hv
      have hz : v = 1 := by simpa [Outcome.val?] using hv
      subst hz
      exact ⟨s1, rfl, capture_success_frame_ptr _ s1 (Or.inl h)⟩
  · have hv : (resume_picture (camState 128 [[0x00], [0x76, 0x00, 0x36, 0x00, 0x00]])).val?
        = some 1 := by decide
    cases h : resume_picture (camState 128 [[0x00], [0x76, 0x00, 0x36, 0x00, 0x00]]) with
    | assert_fail s1 => rw [h] at hv; cases hv
    | ret v s1 =>
      rw [h] at hv
      have hz : v = 1 := by simpa [Outcome.val?] using hv
      subst hz
      exact ⟨s1, rfl, capture_success_frame_ptr _ s1 (Or.inr h)⟩

/-! ## Frame length query -/

theorem be32_decode (b5 b6 b7 b8 : Nat) (h5 : b5 < 256) (h6 : b6 < 256) (h7 : b7 < 256)
    (h8 : b8 < 256) :
    ((((((b5 <<< 8) % 2 ^ 32) ||| b6) <<< 8) % 2 ^ 32 ||| b7) <<< 8) % 2 ^ 32 ||| b8
      = b5 * 2 ^ 24 + b6 * 2 ^ 16 + b7 * 2 ^ 8 + b8 := by
  have or8 : ∀ a b : Nat, b < 256 → (a <<< 8) ||| b = a * 256 + b := by
    intro a b hb
    rw [Nat.shiftLeft_eq, Nat.mul_comm a (2 ^ 8)]
    have := Nat.mul_add_lt_is_or (show b < 2 ^ 8 from hb) a
    rw [← this]
  have e1 : (b5 <<< 8) % 2 ^ 32 = b5 <<< 8 := by
    apply Nat.mod_eq_of_lt
    rw [Nat.shiftLeft_eq]
    omega
  rw [e1, or8 b5 b6 h6]
  have e2 : ((b5 * 256 + b6) <<< 8) % 2 ^ 32 = (b5 * 256 + b6) <<< 8 := by
    apply Nat.mod_eq_of_lt
    rw [Nat.shiftLeft_eq]
    omega
  rw [e2, or8 _ b7 h7]
  have e3 : (((b5 * 256 + b6) * 256 + b7) <<< 8) % 2 ^ 32 = ((b5 * 256 + b6) * 256 + b7) <<< 8 := by
    apply Nat.mod_eq_of_lt
    rw [Nat.shiftLeft_eq]
    omega
  rw [e3, or8 _ b8 h8]
  ring

theorem buf_of_append (s : State) (g rest : List Nat) (h : s.camera_buffer = g ++ rest)
    (i : Nat) (hi : i < g.length) : s.buf i = g.getD i 0 := by
  unfold State.buf
  rw [h, List.getD_append _ _ _ _ hi]

theorem frame_length_spec (s : State) :
    ∃ s1 rest, s1.camera_buffer = (response_offer 1 s).take 9 ++ rest
      ∧ frame_length s
        = .ret (if ((response_offer 1 s).take 9).length = 9
                    ∧ ((response_offer 1 s).take 9).take 4 = [0x76, 0x00, 0x34, 0x00]
                then
                  ((((((s1.buf 5 <<< 8) % 2 ^ 32) ||| s1.buf 6) <<< 8) % 2 ^ 32
                      ||| s1.buf 7) <<< 8) % 2 ^ 32 ||| s1.buf 8
                else 0) s1 := by
  obtain ⟨s1, rest, e1, b1, -⟩ :=
    run_command_header COMMAND_GET_FBUF_LEN [0x01, 0x00] 2 9 1 s (by decide) (by decide)
  refine ⟨s1, rest, b1, ?_⟩
  unfold frame_length
  rw [e1]
  simp only [Outcome.bind, COMMAND_GET_FBUF_LEN]
  split_ifs with h1 h2 h3
  · exact absurd h2 (by decide)
  · rfl
  · rfl
  · exact absurd h3 (by decide)

/-- C10: `frame_length` returns; it returns 0 whenever its command fails (fewer
than 9 bytes received or a bad header), and otherwise, the received bytes
being bytes, exactly `b5*2^24 + b6*2^16 + b7*2^8 + b8` for the bytes at indices
5..8 of the 9-byte response just received, a value below `2^32`; for the
bytes `[0x00, 0x01, 0x86, 0xA0]` it returns 100000. -/
theorem frame_length_value (s : State) :
    ∃ v s1, frame_length s = .ret v s1
      ∧ (¬ (((response_offer 1 s).take 9).length = 9
            ∧ ((response_offer 1 s).take 9).take 4 = [0x76, 0x00, 0x34, 0x00]) → v = 0)
      ∧ (((response_offer 1 s).take 9).length = 9
            ∧ ((response_offer 1 s).take 9).take 4 = [0x76, 0x00, 0x34, 0x00] →
          (∀ b ∈ (response_offer 1 s).take 9, b < 256) →
          v = ((response_offer 1 s).take 9).getD 5 0 * 2 ^ 24
              + ((response_offer 1 s).take 9).getD 6 0 * 2 ^ 16
              + ((response_offer 1 s).take 9).getD 7 0 * 2 ^ 8
              + ((response_offer 1 s).take 9).getD 8 0
          ∧ v < 2 ^ 32)
      ∧ (∀ b4, (response_offer 1 s).take 9
              = [0x76, 0x00, 0x34, 0x00, b4, 0x00, 0x01, 0x86, 0xA0] → v = 100000) := by
  obtain ⟨s1, rest, b1, e1⟩ := frame_length_spec s
  refine ⟨_, s1, e1, ?_, ?_, ?_⟩
  · intro h
    rw [if_neg h]
  · intro h hb
    rw [if_pos h]
    have hlen := h.1
    have g : ∀ i, i < 9 → s1.buf i = ((response_offer 1 s).take 9).getD i 0
        ∧ ((response_offer 1 s).take 9).getD i 0 < 256 := by
      intro i hi
      have hi2 : i < ((response_offer 1 s).take 9).length := by omega
      refine ⟨buf_of_append s1 _ rest b1 i hi2, ?_⟩
      rw [List.getD_eq_getElem _ _ hi2]
      exact hb _ (List.getElem_mem hi2)
    obtain ⟨g5, l5⟩ := g 5 (by decide)
    obtain ⟨g6, l6⟩ := g 6 (by decide)
    obtain ⟨g7, l7⟩ := g 7 (by decide)
    obtain ⟨g8, l8⟩ := g 8 (by decide)
    rw [g5, g6, g7, g8, be32_decode _ _ _ _ l5 l6 l7 l8]
    refine ⟨rfl, ?_⟩
    omega
  · intro b4 hr
    have hok : ((response_offer 1 s).take 9).length = 9
        ∧ ((response_offer 1 s).take 9).take 4 = [0x76, 0x00, 0x34, 0x00] := by
      rw [hr]
      exact ⟨rfl, rfl⟩
    rw [if_pos hok]
    have g : ∀ i, i < 9 → s1.buf i
        = ([0x76, 0x00, 0x34, 0x00, b4, 0x00, 0x01, 0x86, 0xA0] : List Nat).getD i 0 := by
      intro i hi
      rw [← hr]
      exact buf_of_append s1 _ rest b1 i (by rw [hok.1]; exact hi)
    rw [g 5 (by decide), g 6 (by decide), g 7 (by decide), g 8 (by decide)]
    simp only [List.getD_cons_succ, List.getD_cons_zero]
    decide

theorem frame_length_value_witness :
    (frame_length (initState [[0xEE], [0x76, 0x00, 0x34, 0x00, 0x04, 0x00, 0x01, 0x86, 0xA0]])).val?
        = some 100000
    ∧ (frame_length (initState [[0xEE], [0x76, 0x00, 0x34, 0x00, 0x04, 0x00, 0x01]])).val?
        = some 0 := by
  constructor
  · obtain ⟨v, s1, e, -, -, h⟩ := frame_length_value
      (initState [[0xEE], [0x76, 0x00, 0x34, 0x00, 0x04, 0x00, 0x01, 0x86, 0xA0]])
    rw [e, h 0x04 (by decide)]
    rfl
  · obtain ⟨v, s1, e, h, -⟩ := frame_length_value
      (initState [[0xEE], [0x76, 0x00, 0x34, 0x00, 0x04, 0x00, 0x01]])
    rw [e, h (by decide)]
    rfl

/-! ## Transport operations of a command -/

theorem length_recv (got old : List Nat) (cap : Nat) (hg : got.length ≤ cap)
    (ho : cap < old.length) : (got ++ old.drop got.length).length = old.length := by
  rw [List.length_append, List.length_drop]
  omega

theorem run_command_full (cmd : Nat) (args : List Nat) (alen L : Nat) (flush : Int) (s : State)
    (h100 : L ≤ CAMERA_BUFFER_SIZE) :
    ∃ v s3, run_command cmd args alen L flush s = .ret v s3
      ∧ s3.trace = s.trace ++ (drain_ops flush s ++ frame_ops cmd (args.take alen)
          ++ [Op.read L STD_WAIT ((response_offer flush s).take L)])
      ∧ s3.buffer_length ≤ L
      ∧ (CAMERA_BUFFER_SIZE < s.camera_buffer.length →
          s3.camera_buffer.length = s.camera_buffer.length) := by
  have step : ∀ s1 : State, ∃ v s3,
      ((fun (_ : Nat) (s1 : State) =>
        (read_response L (STD_WAIT % 256) (send_command cmd args alen s1)).bind
          fun received_response_length s3 =>
            if received_response_length ≠ L then Outcome.ret (0 : Int) s3
            else if verify_response cmd s3 = 0 then Outcome.ret 0 s3
            else Outcome.ret 1 s3) 0 s1) = .ret v s3
      ∧ s3.trace = s1.trace ++ (frame_ops cmd (args.take alen)
          ++ [Op.read L STD_WAIT ((s1.rx.headD []).take L)])
      ∧ s3.buffer_length ≤ L
      ∧ (CAMERA_BUFFER_SIZE < s1.camera_buffer.length →
          s3.camera_buffer.length = s1.camera_buffer.length) := by
    intro s1
    obtain ⟨hb, hl, hf, hr, ht⟩ := send_command_spec cmd args alen s1
    obtain ⟨s3, e3, b3, l3, f3, r3, t3⟩ :=
      read_response_spec L (STD_WAIT % 256) (send_command cmd args alen s1) h100
    rw [hr] at e3 b3 l3 t3
    rw [hb] at b3
    have hlen : ((s1.rx.headD []).take L).length ≤ L := List.length_take_le _ _
    have hv : ∃ v, ((fun (_ : Nat) (s1 : State) =>
        (read_response L (STD_WAIT % 256) (send_command cmd args alen s1)).bind
          fun received_response_length s3 =>
            if received_response_length ≠ L then Outcome.ret (0 : Int) s3
            else if verify_response cmd s3 = 0 then Outcome.ret 0 s3
            else Outcome.ret 1 s3) 0 s1) = .ret v s3 := by
      simp only [e3, Outcome.bind]
      split_ifs
      · exact ⟨_, rfl⟩
      · exact ⟨_, rfl⟩
      · exact ⟨_, rfl⟩
    obtain ⟨v, hv⟩ := hv
    refine ⟨v, s3, hv, ?_, ?_, ?_⟩
    · rw [t3, ht]
      simp [frame_ops]
    · rw [l3]
      exact hlen
    · intro hcap
      rw [b3]
      exact length_recv _ _ CAMERA_BUFFER_SIZE (le_trans hlen h100) hcap
  unfold run_command response_offer drain_ops
  by_cases hfl : flush = 0
  · simp only [hfl, ne_eq, not_true_eq_false, if_false, Outcome.bind, List.nil_append]
    exact step s
  · obtain ⟨s1, e1, b1, l1, f1, r1, t1⟩ := read_response_spec CAMERA_BUFFER_SIZE 10 s (le_refl _)
    obtain ⟨v, s3, e3, t3, l3, c3⟩ := step s1
    rw [r1] at t3
    have hlen : ((s.rx.headD []).take CAMERA_BUFFER_SIZE).length ≤ CAMERA_BUFFER_SIZE :=
      List.length_take_le _ _
    refine ⟨v, s3, ?_, ?_, l3, ?_⟩
    · simp only [ne_eq, hfl, not_false_eq_true, if_true, e1, Outcome.bind]
      exact e3
    · rw [t3, t1]
      simp [hfl]
    · intro hcap
      have h1 : s1.camera_buffer.length = s.camera_buffer.length := by
        rw [b1]
        exact length_recv _ _ CAMERA_BUFFER_SIZE hlen hcap
      rw [c3 (by rw [h1]; exact hcap), h1]

theorem run_command_stops (cmd : Nat) (args : List Nat) (alen L : Nat) (flush : Int) (s : State)
    (h100 : CAMERA_BUFFER_SIZE < L) :
    ∃ s2, run_command cmd args alen L flush s = .assert_fail s2 := by
  have hn : ¬ L ≤ CAMERA_BUFFER_SIZE := by omega
  unfold run_command
  by_cases hfl : flush = 0
  · simp only [hfl, ne_eq, not_true_eq_false, if_false, Outcome.bind, read_response, if_neg hn]
    exact ⟨_, rfl⟩
  · obtain ⟨s1, e1, -⟩ := read_response_spec CAMERA_BUFFER_SIZE 10 s (le_refl _)
    simp only [ne_eq, hfl, not_false_eq_true, if_true, e1, Outcome.bind, read_response,
      if_neg hn]
    exact ⟨_, rfl⟩

theorem run_command_all (cmd : Nat) (args : List Nat) (alen L : Nat) (flush : Int) (s : State)
    (h4 : 4 ≤ L) (h100 : L ≤ CAMERA_BUFFER_SIZE) :
    ∃ s3 rest, run_command cmd args alen L flush s
        = .ret (if ((response_offer flush s).take L).length = L
                  ∧ ((response_offer flush s).take L).take 4 = [0x76, 0x00, cmd, 0x00]
                then 1 else 0) s3
      ∧ s3.camera_buffer = (response_offer flush s).take L ++ rest
      ∧ s3.buffer_length = ((response_offer flush s).take L).length
      ∧ s3.frame_ptr = s.frame_ptr
      ∧ s3.trace = s.trace ++ (drain_ops flush s ++ frame_ops cmd (args.take alen)
          ++ [Op.read L STD_WAIT ((response_offer flush s).take L)])
      ∧ (CAMERA_BUFFER_SIZE < s.camera_buffer.length →
          s3.camera_buffer.length = s.camera_buffer.length) := by
  obtain ⟨s3, rest, e3, b3, l3, f3, -, -⟩ := run_command_header cmd args alen L flush s h4 h100
  obtain ⟨v, t3, e, tr, -, cl⟩ := run_command_full cmd args alen L flush s h100
  rw [e3] at e
  injection e with _ hs
  subst hs
  exact ⟨s3, rest, e3, b3, l3, f3, tr, cl⟩

theorem written_command_ops (cmd : Nat) (args : List Nat) (flush : Int) (s : State)
    (L : Nat) (got : List Nat) :
    written (drain_ops flush s ++ frame_ops cmd args ++ [Op.read L STD_WAIT got])
      = [0x56, 0x00, cmd] ++ args := by
  unfold drain_ops frame_ops
  split_ifs <;> simp [written]

/-! ## Resolution and reset -/

/-- C11: `get_image_resolution` returns; it returns `0xFF` whenever its command
fails (fewer than 6 bytes received or a bad header) and otherwise the byte at
index 5 of the 6-byte response just received; for the response
`[0x76, 0x00, 0x30, 0x00, 0x00, 0x02]` it returns `0x02`; and the value `0xFF`
occurs exactly when the command failed or the received byte 5 is `0xFF`. -/
theorem get_image_resolution_value (s : State) :
    ∃ v s1, get_image_resolution s = .ret v s1
      ∧ (¬ (((response_offer 1 s).take 6).length = 6
            ∧ ((response_offer 1 s).take 6).take 4 = [0x76, 0x00, 0x30, 0x00]) → v = 0xFF)
      ∧ (((response_offer 1 s).take 6).length = 6
            ∧ ((response_offer 1 s).take 6).take 4 = [0x76, 0x00, 0x30, 0x00] →
          v = ((response_offer 1 s).take 6).getD 5 0)
      ∧ ((response_offer 1 s).take 6 = [0x76, 0x00, 0x30, 0x00, 0x00, 0x02] → v = 0x02)
      ∧ (v = 0xFF ↔ ¬ (((response_offer 1 s).take 6).length = 6
            ∧ ((response_offer 1 s).take 6).take 4 = [0x76, 0x00, 0x30, 0x00])
          ∨ ((response_offer 1 s).take 6).getD 5 0 = 0xFF) := by
  obtain ⟨s1, rest, e1, b1, -⟩ :=
    run_command_header COMMAND_READ_DATA [0x04, 0x04, 0x01, 0x00, 0x19] 0x05 0x06 1 s
      (by decide) (by decide)
  simp only [COMMAND_READ_DATA] at e1
  by_cases hok : ((response_offer 1 s).take 6).length = 6
      ∧ ((response_offer 1 s).take 6).take 4 = [0x76, 0x00, 0x30, 0x00]
  · have hv : get_image_resolution s = .ret (((response_offer 1 s).take 6).getD 5 0) s1 := by
      unfold get_image_resolution
      simp only [COMMAND_READ_DATA]
      rw [e1, if_pos hok]
      simp only [Outcome.bind, one_ne_zero, if_false]
      rw [buf_of_append s1 _ rest b1 5 (by rw [hok.1]; decide)]
    refine ⟨_, s1, hv, fun h => absurd hok h, fun _ => rfl, ?_, ?_⟩
    · intro hr
      rw [hr]
      rfl
    · constructor
      · intro h
        exact Or.inr h
      · intro h
        rcases h with h | h
        · exact absurd hok h
        · exact h
  · have hv : get_image_resolution s = .ret 0xFF s1 := by
      unfold get_image_resolution
      simp only [COMMAND_READ_DATA]
      rw [e1, if_neg hok]
      simp only [Outcome.bind, if_true]
    refine ⟨_, s1, hv, fun _ => rfl, fun h => absurd h hok, ?_, ?_⟩
    · intro hr
      exact absurd (by rw [hr]; exact ⟨rfl, rfl⟩) hok
    · constructor
      · intro _
        exact Or.inl hok
      · intro _
        rfl

theorem get_image_resolution_value_witness :
    (get_image_resolution (initState [[0x11], [0x76, 0x00, 0x30, 0x00, 0x00, 0x02]])).val?
        = some 0x02
    ∧ (get_image_resolution (initState [[0x76, 0x00, 0x30, 0x00, 0x00, 0x02], [0x76]])).val?
        = some 0xFF := by
  constructor
  · obtain ⟨v, s1, e, -, -, h, -⟩ := get_image_resolution_value
      (initState [[0x11], [0x76, 0x00, 0x30, 0x00, 0x00, 0x02]])
    rw [e, h (by decide)]
    rfl
  · obtain ⟨v, s1, e, h, -⟩ := get_image_resolution_value
      (initState [[0x76, 0x00, 0x30, 0x00, 0x00, 0x02], [0x76]])
    rw [e, h (by decide)]
    rfl

/-- C12: `camera_reset` is `run_command(0x26, [0x00], 5, flush enabled)`: a drain
read, the writes of exactly `[0x56, 0x00, 0x26, 0x00]`, and one response read
of 5 bytes; it returns 1 whenever that read delivers
`[0x76, 0x00, 0x26, 0x00, x]`, for every fifth byte `x`. -/
theorem camera_reset_frame (s : State) :
    written (camera_reset s).state.trace = written s.trace ++ [0x56, 0x00, 0x26, 0x00]
    ∧ (camera_reset s).state.trace
        = s.trace ++ [Op.read 100 STD_WAIT ((s.rx.headD []).take 100),
                      Op.write [0x56, 0x00], Op.write [0x26], Op.write [0x00],
                      Op.read 5 STD_WAIT ((response_offer 1 s).take 5)]
    ∧ (∀ x, (response_offer 1 s).take 5 = [0x76, 0x00, 0x26, 0x00, x] →
        ∃ s1, camera_reset s = .ret 1 s1) := by
  obtain ⟨s1, rest, e1, -, -, -, t1, -⟩ :=
    run_command_all COMMAND_RESET [0x0] 1 5 1 s (by decide) (by decide)
  have hc : camera_reset s = run_command COMMAND_RESET [0x0] 1 5 1 s := rfl
  have ht : s1.trace = s.trace ++ [Op.read 100 STD_WAIT ((s.rx.headD []).take 100),
      Op.write [0x56, 0x00], Op.write [0x26], Op.write [0x00],
      Op.read 5 STD_WAIT ((response_offer 1 s).take 5)] := by
    rw [t1]
    simp [drain_ops, frame_ops, COMMAND_RESET, CAMERA_BUFFER_SIZE]
  refine ⟨?_, ?_, ?_⟩
  · rw [hc, e1]
    simp only [Outcome.state, ht, written_append, written]
    simp
  · rw [hc, e1]
    exact ht
  · intro x hx
    refine ⟨s1, ?_⟩
    rw [hc, e1, if_pos]
    rw [hx]
    exact ⟨rfl, rfl⟩

theorem camera_reset_frame_witness :
    (camera_reset (initState [[], [0x76, 0x00, 0x26, 0x00, 0x5A]])).val? = some 1 := by
  obtain ⟨s1, e⟩ := (camera_reset_frame (initState [[], [0x76, 0x00, 0x26, 0x00, 0x5A]])).2.2
    0x5A (by decide)
  rw [e]
  rfl

/-! ## Fixed-format operations -/

theorem bind_state {α β : Type} (o : Outcome α) (f : α → State → Outcome β)
    (h : ∀ v s, (f v s).state = s) : (o.bind f).state = o.state := by
  cases o with
  | ret v s => exact h v s
  | assert_fail s => rfl

theorem run_command_ops (cmd : Nat) (args : List Nat) (alen L : Nat) (s : State)
    (h100 : L ≤ CAMERA_BUFFER_SIZE) :
    (run_command cmd args alen L 1 s).state.trace
        = s.trace ++ [Op.read 100 STD_WAIT ((s.rx.headD []).take 100),
                      Op.write [0x56, 0x00], Op.write [cmd], Op.write (args.take alen),
                      Op.read L STD_WAIT ((response_offer 1 s).take L)]
    ∧ written (run_command cmd args alen L 1 s).state.trace
        = written s.trace ++ ([0x56, 0x00, cmd] ++ args.take alen) := by
  obtain ⟨v, s3, e, tr, -⟩ := run_command_full cmd args alen L 1 s h100
  have ht : s3.trace = s.trace ++ [Op.read 100 STD_WAIT ((s.rx.headD []).take 100),
      Op.write [0x56, 0x00], Op.write [cmd], Op.write (args.take alen),
      Op.read L STD_WAIT ((response_offer 1 s).take L)] := by
    rw [tr]
    simp [drain_ops, frame_ops, CAMERA_BUFFER_SIZE]
  rw [e]
  refine ⟨ht, ?_⟩
  simp only [Outcome.state, ht, written_append, written]
  simp

theorem get_image_resolution_state (s : State) :
    (get_image_resolution s).state
      = (run_command COMMAND_READ_DATA [0x04, 0x04, 0x01, 0x00, 0x19] 0x05 0x06 1 s).state := by
  unfold get_image_resolution
  apply bind_state
  intro v s1
  split_ifs <;> rfl

theorem frame_length_state (s : State) :
    (frame_length s).state = (run_command COMMAND_GET_FBUF_LEN [0x01, 0x00] 2 9 1 s).state := by
  unfold frame_length
  apply bind_state
  intro v s1
  split_ifs <;> rfl

/-- C14: each fixed-format operation drains, writes exactly its wire frame and
then reads its fixed response size (6 for `get_image_resolution`, 5 for
`set_image_resolution`, `take_picture` and `resume_picture`, 9 for
`frame_length`); and `set_image_resolution`, `take_picture` and
`resume_picture` return exactly what their `run_command` returns. -/
theorem fixed_format_frames (s : State) (r : Nat) (hr : r < 256) :
    ((get_image_resolution s).state.trace
        = s.trace ++ [Op.read 100 STD_WAIT ((s.rx.headD []).take 100),
            Op.write [0x56, 0x00], Op.write [0x30], Op.write [0x04, 0x04, 0x01, 0x00, 0x19],
            Op.read 6 STD_WAIT ((response_offer 1 s).take 6)]
      ∧ written (get_image_resolution s).state.trace
        = written s.trace ++ [0x56, 0x00, 0x30, 0x04, 0x04, 0x01, 0x00, 0x19])
    ∧ ((set_image_resolution r s).state.trace
        = s.trace ++ [Op.read 100 STD_WAIT ((s.rx.headD []).take 100),
            Op.write [0x56, 0x00], Op.write [0x31], Op.write [0x05, 0x04, 0x01, 0x00, 0x19, r],
            Op.read 5 STD_WAIT ((response_offer 1 s).take 5)]
      ∧ written (set_image_resolution r s).state.trace
        = written s.trace ++ [0x56, 0x00, 0x31, 0x05, 0x04, 0x01, 0x00, 0x19, r]
      ∧ set_image_resolution r s
        = run_command 0x31 [0x05, 0x04, 0x01, 0x00, 0x19, r] 6 5 1 s)
    ∧ ((take_picture s).state.trace
        = s.trace ++ [Op.read 100 STD_WAIT ((s.rx.headD []).take 100),
            Op.write [0x56, 0x00], Op.write [0x36], Op.write [0x01, 0x00],
            Op.read 5 STD_WAIT ((response_offer 1 s).take 5)]
      ∧ written (take_picture s).state.trace
        = written s.trace ++ [0x56, 0x00, 0x36, 0x01, 0x00]
      ∧ take_picture s = run_command 0x36 [0x01, 0x00] 2 5 1 { s with frame_ptr := 0 })
    ∧ ((resume_picture s).state.trace
        = s.trace ++ [Op.read 100 STD_WAIT ((s.rx.headD []).take 100),
            Op.write [0x56, 0x00], Op.write [0x36], Op.write [0x01, 0x03],
            Op.read 5 STD_WAIT ((response_offer 1 s).take 5)]
      ∧ written (resume_picture s).state.trace
        = written s.trace ++ [0x56, 0x00, 0x36, 0x01, 0x03]
      ∧ resume_picture s = run_command 0x36 [0x01, 0x03] 2 5 1 { s with frame_ptr := 0 })
    ∧ ((frame_length s).state.trace
        = s.trace ++ [Op.read 100 STD_WAIT ((s.rx.headD []).take 100),
            Op.write [0x56, 0x00], Op.write [0x34], Op.write [0x01, 0x00],
            Op.read 9 STD_WAIT ((response_offer 1 s).take 9)]
      ∧ written (frame_length s).state.trace
        = written s.trace ++ [0x56, 0x00, 0x34, 0x01, 0x00]) := by
  refine ⟨?_, ?_, ?_, ?_, ?_⟩
  · rw [get_image_resolution_state]
    exact run_command_ops COMMAND_READ_DATA [0x04, 0x04, 0x01, 0x00, 0x19] 0x05 0x06 s
      (by decide)
  · have hset : set_image_resolution r s
        = run_command 0x31 [0x05, 0x04, 0x01, 0x00, 0x19, r] 6 5 1 s := by
      unfold set_image_resolution
      rw [Nat.mod_eq_of_lt hr]
      rfl
    obtain ⟨h1, h2⟩ := run_command_ops 0x31 [0x05, 0x04, 0x01, 0x00, 0x19, r] 6 5 s (by decide)
    rw [hset]
    exact ⟨h1, h2, rfl⟩
  · obtain ⟨h1, h2⟩ := run_command_ops 0x36 [0x01, 0x00] 2 5 { s with frame_ptr := 0 }
      (by decide)
    exact ⟨h1, h2, rfl⟩
  · obtain ⟨h1, h2⟩ := run_command_ops 0x36 [0x01, 0x03] 2 5 { s with frame_ptr := 0 }
      (by decide)
    exact ⟨h1, h2, rfl⟩
  · rw [frame_length_state]
    exact run_command_ops COMMAND_GET_FBUF_LEN [0x01, 0x00] 2 9 s (by decide)

theorem fixed_format_frames_witness :
    0x07 < 256
    ∧ written (set_image_resolution 0x07 (initState [])).state.trace
        = [0x56, 0x00, 0x31, 0x05, 0x04, 0x01, 0x00, 0x19, 0x07] :=
  ⟨by decide, (fixed_format_frames (initState []) 0x07 (by decide)).2.1.2.1⟩

/-! ## Buffer capacity and order of the transport operations -/

theorem read_picture_full (n : Nat) (s : State) :
    ∃ ops, (read_picture n s).state.trace
        = s.trace ++ (frame_ops 0x32 (read_fbuf_args s.frame_ptr n)
            ++ [Op.read 5 STD_WAIT (ack_bytes s)] ++ ops)
      ∧ (ops = [] ∨ (ops = [Op.read ((n + 5) % 256) STD_WAIT (payload_bytes n s)]
            ∧ (n + 5) % 256 ≤ 100 ∧ ack_ok s))
      ∧ (read_picture n s).state.buffer_length ≤ 100
      ∧ (CAMERA_BUFFER_SIZE < s.camera_buffer.length →
          (read_picture n s).state.camera_buffer.length = s.camera_buffer.length) := by
  obtain ⟨s1, rest1, e1, -, l1, -, t1, c1⟩ :=
    run_command_all COMMAND_READ_FBUF (read_fbuf_args s.frame_ptr n)
      (read_fbuf_args s.frame_ptr n).length 5 0 s (by decide) (by decide)
  have hoff : (response_offer 0 s).take 5 = ack_bytes s := by
    simp [response_offer, ack_bytes]
  rw [hoff] at e1 t1 l1
  have hl1 : s1.buffer_length ≤ 100 := by
    rw [l1]
    have := List.length_take_le 5 (s.rx.headD [])
    unfold ack_bytes
    omega
  have ht1 : s1.trace = s.trace ++ (frame_ops 0x32 (read_fbuf_args s.frame_ptr n)
      ++ [Op.read 5 STD_WAIT (ack_bytes s)]) := by
    rw [t1]
    simp [drain_ops, COMMAND_READ_FBUF]
  have e1b : run_command COMMAND_READ_FBUF (read_fbuf_args s.frame_ptr n)
      (read_fbuf_args s.frame_ptr n).length 5 0 s
        = Outcome.ret (if ack_ok s then (1 : Int) else 0) s1 := e1
  have hun : read_picture n s
      = (Outcome.ret (if ack_ok s then (1 : Int) else 0) s1).bind fun response s1 =>
          if response = 0 then .ret Ptr.null s1
          else
            (read_response ((n + 5) % 256) CAMERADELAY s1).bind fun response s2 =>
              if response = 0 then .ret Ptr.null s2
              else .ret Ptr.camera_buffer { s2 with frame_ptr := (s2.frame_ptr + n) % 65536 } := by
    rw [← e1b]; rfl
  have hr1 : s1.rx = s.rx.tail := by
    obtain ⟨t3, _, e3, -, -, -, r3, -⟩ :=
      run_command_header COMMAND_READ_FBUF (read_fbuf_args s.frame_ptr n)
        (read_fbuf_args s.frame_ptr n).length 5 0 s (by decide) (by decide)
    rw [e1b] at e3
    injection e3 with _ hs
    subst hs
    simpa using r3
  by_cases hack : ack_ok s
  · rw [if_pos hack] at hun
    simp only [Outcome.bind, one_ne_zero, if_false] at hun
    by_cases hm : (n + 5) % 256 ≤ 100
    · obtain ⟨s2, e2, b2, l2, f2, r2, t2⟩ :=
        read_response_spec ((n + 5) % 256) CAMERADELAY s1 hm
      rw [hr1] at e2 b2 l2 t2
      have hpay : (s.rx.tail.headD []).take ((n + 5) % 256) = payload_bytes n s := rfl
      rw [hpay] at e2 b2 l2 t2
      have hplen : (payload_bytes n s).length ≤ 100 := by
        have := List.length_take_le ((n + 5) % 256) (s.rx.tail.headD [])
        unfold payload_bytes
        omega
      have hst : (read_picture n s).state.trace = s2.trace
          ∧ (read_picture n s).state.buffer_length = s2.buffer_length
          ∧ (read_picture n s).state.camera_buffer = s2.camera_buffer := by
        rw [hun, e2]
        simp only []
        split_ifs <;> exact ⟨rfl, rfl, rfl⟩
      obtain ⟨ht, hl, hb⟩ := hst
      refine ⟨[Op.read ((n + 5) % 256) STD_WAIT (payload_bytes n s)], ?_,
        Or.inr ⟨rfl, hm, hack⟩, ?_, ?_⟩
      · rw [ht, t2, ht1]
        simp
      · rw [hl, l2]
        exact hplen
      · intro hcap
        rw [hb, b2, length_recv _ _ CAMERA_BUFFER_SIZE hplen (by rw [c1 hcap]; exact hcap),
          c1 hcap]
    · have e2 : read_response ((n + 5) % 256) CAMERADELAY s1 = .assert_fail s1 := by
        unfold read_response
        rw [if_neg (show ¬ (n + 5) % 256 ≤ CAMERA_BUFFER_SIZE from hm)]
      rw [e2] at hun
      rw [hun]
      refine ⟨[], ?_, Or.inl rfl, hl1, c1⟩
      simp [Outcome.state, ht1]
  · rw [if_neg hack] at hun
    simp only [Outcome.bind, if_true] at hun
    rw [hun]
    refine ⟨[], ?_, Or.inl rfl, hl1, c1⟩
    simp [Outcome.state, ht1]

theorem reads_within_command (cmd : Nat) (args : List Nat) (flush : Int) (s : State)
    (L : Nat) (got : List Nat) (hL : L ≤ CAMERA_BUFFER_SIZE) :
    reads_within CAMERA_BUFFER_SIZE
      (drain_ops flush s ++ frame_ops cmd args ++ [Op.read L STD_WAIT got]) := by
  intro op hop
  simp only [drain_ops, frame_ops, List.mem_append, List.mem_cons, List.mem_singleton,
    List.not_mem_nil, or_false] at hop
  rcases hop with (hop | hop | hop | hop) | hop
  · split_ifs at hop
    · simp only [List.mem_singleton] at hop
      subst hop
      exact le_refl _
    · cases hop
  · subst hop; exact Nat.zero_le _
  · subst hop; exact Nat.zero_le _
  · subst hop; exact Nat.zero_le _
  · subst hop; exact hL

theorem run_command_within (cmd : Nat) (args : List Nat) (alen L : Nat) (flush : Int)
    (s : State) (hL : L ≤ CAMERA_BUFFER_SIZE) :
    within_capacity s (run_command cmd args alen L flush s) := by
  obtain ⟨v, s3, e, tr, l3, c3⟩ := run_command_full cmd args alen L flush s hL
  rw [e]
  refine ⟨⟨v, s3, rfl⟩, ⟨_, tr, reads_within_command _ _ _ _ _ _ hL⟩, le_trans l3 hL, ?_⟩
  intro hlen
  show s3.camera_buffer.length = CAMERA_BUFFER_SIZE + 1
  rw [c3 (by rw [hlen]; exact Nat.lt_succ_self _), hlen]

theorem within_capacity_bind {α β : Type} (s : State) (o : Outcome α)
    (f : α → State → Outcome β) (h : within_capacity s o)
    (hf : ∀ v s1, ∃ w, f v s1 = .ret w s1) : within_capacity s (o.bind f) := by
  obtain ⟨⟨v, s1, e⟩, htr, hl, hc⟩ := h
  subst e
  obtain ⟨w, hw⟩ := hf v s1
  have hb : (Outcome.ret v s1).bind f = .ret w s1 := hw
  rw [hb]
  exact ⟨⟨w, s1, rfl⟩, htr, hl, hc⟩

theorem read_picture_returns (n : Nat) (s : State) (hm : (n + 5) % 256 ≤ 100) :
    ∃ p s1, read_picture n s = .ret p s1 := by
  obtain ⟨-, c1, -, c3, c4⟩ := read_picture_spec n s
  by_cases hack : ack_ok s
  · by_cases hp : payload_bytes n s = []
    · obtain ⟨s2, e2, -⟩ := c3 hack hm hp
      exact ⟨_, s2, e2⟩
    · obtain ⟨s2, _, e2, -⟩ := c4 hack hm hp
      exact ⟨_, s2, e2⟩
  · obtain ⟨s1, e1, -⟩ := c1 hack
    exact ⟨_, s1, e1⟩

theorem read_picture_reads_within (n : Nat) (s : State) :
    (∃ ops, (read_picture n s).state.trace = s.trace ++ ops
        ∧ reads_within CAMERA_BUFFER_SIZE ops)
    ∧ (read_picture n s).state.buffer_length ≤ CAMERA_BUFFER_SIZE
    ∧ (s.camera_buffer.length = CAMERA_BUFFER_SIZE + 1 →
        (read_picture n s).state.camera_buffer.length = CAMERA_BUFFER_SIZE + 1) := by
  obtain ⟨ops, ht, hops, hl, hc⟩ := read_picture_full n s
  refine ⟨⟨_, ht, ?_⟩, hl, ?_⟩
  · intro op hop
    simp only [frame_ops, List.mem_append, List.mem_cons, List.mem_singleton,
      List.not_mem_nil, or_false] at hop
    rcases hop with ((hop | hop | hop) | hop) | hop
    · subst hop; exact Nat.zero_le _
    · subst hop; exact Nat.zero_le _
    · subst hop; exact Nat.zero_le _
    · subst hop; exact (by decide : (5 : Nat) ≤ CAMERA_BUFFER_SIZE)
    · rcases hops with h0 | ⟨h1, hm, -⟩
      · rw [h0] at hop; cases hop
      · rw [h1] at hop
        simp only [List.mem_singleton] at hop
        subst hop
        exact hm
  · intro hlen
    rw [hc (by rw [hlen]; exact Nat.lt_succ_self _), hlen]

/-- What the code guarantees about the buffer capacity: `camera_reset`,
`get_image_resolution`, `set_image_resolution`, `take_picture`,
`resume_picture`, `frame_length` and `read_picture(n)` with `n <= 95` return
without a failed assertion, every read they request asks for at most 100
bytes, `buffer_length <= 100` afterwards and the 101-byte buffer keeps its
size. For every chunk size `m`, the reads that `read_picture(m)` does issue
ask for at most 100 bytes. -/
theorem receive_buffer_capacity (s : State) (r n : Nat) (hn : n ≤ 95) :
    within_capacity s (camera_reset s)
    ∧ within_capacity s (get_image_resolution s)
    ∧ within_capacity s (set_image_resolution r s)
    ∧ within_capacity s (take_picture s)
    ∧ within_capacity s (resume_picture s)
    ∧ within_capacity s (frame_length s)
    ∧ within_capacity s (read_picture n s)
    ∧ (∀ m, (∃ ops, (read_picture m s).state.trace = s.trace ++ ops
              ∧ reads_within CAMERA_BUFFER_SIZE ops)
          ∧ (read_picture m s).state.buffer_length ≤ CAMERA_BUFFER_SIZE
          ∧ (s.camera_buffer.length = CAMERA_BUFFER_SIZE + 1 →
              (read_picture m s).state.camera_buffer.length = CAMERA_BUFFER_SIZE + 1)) := by
  refine ⟨?_, ?_, ?_, ?_, ?_, ?_, ?_, ?_⟩
  · exact run_command_within COMMAND_RESET [0x0] 1 5 1 s (by decide)
  · unfold get_image_resolution
    apply within_capacity_bind
    · exact run_command_within _ _ _ _ _ s (by decide)
    · intro v s1
      split_ifs
      · exact ⟨_, rfl⟩
      · exact ⟨_, rfl⟩
  · exact run_command_within _ _ _ _ _ s (by decide)
  · exact run_command_within COMMAND_FBUF_CTRL [0x1, COMMAND_STOPCURRENTFRAME] 2 5 1
      { s with frame_ptr := 0 } (by decide)
  · exact run_command_within COMMAND_FBUF_CTRL [0x1, COMMAND_RESUMEFRAME] 2 5 1
      { s with frame_ptr := 0 } (by decide)
  · unfold frame_length
    apply within_capacity_bind
    · exact run_command_within _ _ _ _ _ s (by decide)
    · intro v s1
      split_ifs
      · exact ⟨_, rfl⟩
      · exact ⟨_, rfl⟩
  · have hm : (n + 5) % 256 ≤ 100 := by omega
    obtain ⟨htr, hl, hc⟩ := read_picture_reads_within n s
    exact ⟨read_picture_returns n s hm, htr, hl, hc⟩
  · intro m
    exact read_picture_reads_within m s

theorem receive_buffer_capacity_witness :
    64 ≤ 95
    ∧ within_capacity (initState [fbuf_ack, List.replicate 200 0xD8])
        (read_picture 64 (initState [fbuf_ack, List.replicate 200 0xD8]))
    ∧ within_capacity (initState [List.replicate 200 0x00, List.replicate 200 0x76])
        (frame_length (initState [List.replicate 200 0x00, List.replicate 200 0x76])) :=
  ⟨by decide,
   (receive_buffer_capacity (initState [fbuf_ack, List.replicate 200 0xD8]) 0 64
      (by decide)).2.2.2.2.2.2.1,
   (receive_buffer_capacity (initState [List.replicate 200 0x00, List.replicate 200 0x76]) 0 64
      (by decide)).2.2.2.2.2.1⟩

/-- C13: evaluation at the failing input. With a valid acknowledgment,
`read_picture(96)` passes `96 + 5 = 101` to `read_response` unchecked and the
assertion `numbytes <= CAMERA_BUFFER_SIZE` fails: the call does not return. -/
theorem read_picture_96_fails_assertion :
    (96 + 5) % 256 = 101
    ∧ (read_picture 96 (initState [fbuf_ack, List.replicate 101 0xD8])).val? = none
    ∧ ¬ within_capacity (initState [fbuf_ack, List.replicate 101 0xD8])
          (read_picture 96 (initState [fbuf_ack, List.replicate 101 0xD8])) := by
  have hv : (read_picture 96 (initState [fbuf_ack, List.replicate 101 0xD8])).val? = none := by
    decide
  refine ⟨by decide, hv, ?_⟩
  intro h
  obtain ⟨⟨v, s1, e⟩, -⟩ := h
  rw [e] at hv
  cases hv

/-- C15: evaluation at the failing input. In `camera_reset` from the state of
`cam_init`, the drain read asks for at most 100 bytes, and both the drain
read and the response read are issued with the idle timeout
`STD_WAIT = 70000`: the drain timeout is not shorter. -/
theorem drain_read_uses_response_timeout :
    (camera_reset (initState [[0xAA], [0x76, 0x00, 0x26, 0x00, 0x00]])).state.trace
      = [Op.read 100 70000 [0xAA],
         Op.write [0x56, 0x00], Op.write [0x26], Op.write [0x00],
         Op.read 5 70000 [0x76, 0x00, 0x26, 0x00, 0x00]] := by
  decide

theorem drains_first (cmd : Nat) (args : List Nat) (alen L : Nat) (s : State)
    (h100 : L ≤ CAMERA_BUFFER_SIZE) :
    ∃ ops, (run_command cmd args alen L 1 s).state.trace
      = s.trace ++ (Op.read 100 STD_WAIT ((s.rx.headD []).take 100) :: ops) :=
  ⟨_, (run_command_ops cmd args alen L s h100).1⟩

theorem verify_response_01 (cmd : Nat) (s : State) :
    verify_response cmd s = 0 ∨ verify_response cmd s = 1 := by
  unfold verify_response
  split_ifs
  · exact Or.inl rfl
  · exact Or.inr rfl

theorem run_command_validated (cmd : Nat) (args : List Nat) (alen L : Nat) (flush : Int)
    (s : State) (hL : L ≤ CAMERA_BUFFER_SIZE) :
    ∃ v s3 rest, run_command cmd args alen L flush s = .ret v s3
      ∧ s3.trace = s.trace
          ++ ((if flush ≠ 0 then [Op.read 100 STD_WAIT ((s.rx.headD []).take 100)] else [])
            ++ [Op.write [0x56, 0x00], Op.write [cmd], Op.write (args.take alen),
                Op.read L STD_WAIT ((response_offer flush s).take L)])
      ∧ s3.camera_buffer = (response_offer flush s).take L ++ rest
      ∧ s3.buffer_length = ((response_offer flush s).take L).length
      ∧ (v = 1 ↔ ((response_offer flush s).take L).length = L ∧ verify_response cmd s3 = 1)
      ∧ (v ≠ 1 → v = 0) := by
  obtain ⟨s3, rest, e3, b3, l3, -, -, -⟩ := run_command_spec cmd args alen L flush s hL
  obtain ⟨w, t3, e, tr, -⟩ := run_command_full cmd args alen L flush s hL
  rw [e3] at e
  injection e with _ hs
  subst hs
  refine ⟨_, s3, rest, e3, ?_, b3, l3, ?_, ?_⟩
  · rw [tr]
    simp [drain_ops, frame_ops, CAMERA_BUFFER_SIZE]
  · rcases verify_response_01 cmd s3 with h0 | h1
    · rw [if_neg (fun hc => hc.2 h0), h0]
      constructor
      · intro hc
        exact absurd hc (by decide)
      · intro hc
        exact absurd hc.2 (by decide)
    · by_cases hlen : ((response_offer flush s).take L).length = L
      · rw [if_pos ⟨hlen, by rw [h1]; decide⟩]
        exact ⟨fun _ => ⟨hlen, h1⟩, fun _ => rfl⟩
      · rw [if_neg (fun hc => hlen hc.1)]
        constructor
        · intro hc
          exact absurd hc (by decide)
        · intro hc
          exact absurd hc.1 hlen
  · intro hv
    split_ifs with h
    · rw [if_pos h] at hv
      exact absurd rfl hv
    · rfl

/-- C16 (amended): every `run_command` call with `response_length <= 100`
returns after performing, in this order, one drain read (only when the flush
flag is non-zero, so with the flag zero the first operation is the frame
write), the three writes of the command frame, and exactly one response read
of at most `response_length` bytes, with no transport operation after it; the
received bytes are left at the start of the buffer and the verdict is the
validation of that read: 1 exactly when it delivered `response_length` bytes
and `verify_response` accepts the buffer, 0 otherwise. `read_picture` starts
with the frame write (no drain read), while `camera_reset`,
`get_image_resolution`, `set_image_resolution`, `take_picture`,
`resume_picture` and `frame_length` start with the drain read. -/
theorem run_command_order (cmd : Nat) (args : List Nat) (alen L : Nat) (flush : Int)
    (s : State) (r n : Nat) (hL : L ≤ 100) :
    (∃ v s3 rest, run_command cmd args alen L flush s = .ret v s3
        ∧ s3.trace = s.trace
            ++ ((if flush ≠ 0 then [Op.read 100 STD_WAIT ((s.rx.headD []).take 100)] else [])
              ++ [Op.write [0x56, 0x00], Op.write [cmd], Op.write (args.take alen),
                  Op.read L STD_WAIT ((response_offer flush s).take L)])
        ∧ ((response_offer flush s).take L).length ≤ L
        ∧ s3.camera_buffer = (response_offer flush s).take L ++ rest
        ∧ s3.buffer_length = ((response_offer flush s).take L).length
        ∧ (v = 1 ↔ ((response_offer flush s).take L).length = L
                    ∧ verify_response cmd s3 = 1)
        ∧ (v ≠ 1 → v = 0)
        ∧ (4 ≤ L → (v = 1 ↔ ((response_offer flush s).take L).length = L
                    ∧ ((response_offer flush s).take L).take 4 = [0x76, 0x00, cmd, 0x00])))
    ∧ (∃ ops, (read_picture n s).state.trace
          = s.trace ++ ([Op.write [0x56, 0x00], Op.write [0x32],
              Op.write (read_fbuf_args s.frame_ptr n), Op.read 5 STD_WAIT (ack_bytes s)] ++ ops)
        ∧ (ops = [] ∨ ops = [Op.read ((n + 5) % 256) STD_WAIT (payload_bytes n s)]))
    ∧ (∃ ops, (camera_reset s).state.trace
          = s.trace ++ (Op.read 100 STD_WAIT ((s.rx.headD []).take 100) :: ops))
    ∧ (∃ ops, (get_image_resolution s).state.trace
          = s.trace ++ (Op.read 100 STD_WAIT ((s.rx.headD []).take 100) :: ops))
    ∧ (∃ ops, (set_image_resolution r s).state.trace
          = s.trace ++ (Op.read 100 STD_WAIT ((s.rx.headD []).take 100) :: ops))
    ∧ (∃ ops, (take_picture s).state.trace
          = s.trace ++ (Op.read 100 STD_WAIT ((s.rx.headD []).take 100) :: ops))
    ∧ (∃ ops, (resume_picture s).state.trace
          = s.trace ++ (Op.read 100 STD_WAIT ((s.rx.headD []).take 100) :: ops))
    ∧ (∃ ops, (frame_length s).state.trace
          = s.trace ++ (Op.read 100 STD_WAIT ((s.rx.headD []).take 100) :: ops)) := by
  refine ⟨?_, ?_, ?_, ?_, ?_, ?_, ?_, ?_⟩
  · obtain ⟨v, s3, rest, e, tr, b3, l3, hv, h0⟩ :=
      run_command_validated cmd args alen L flush s hL
    refine ⟨v, s3, rest, e, tr, List.length_take_le _ _, b3, l3, hv, h0, ?_⟩
    intro h4
    rw [hv]
    constructor
    · intro hc
      refine ⟨hc.1, ?_⟩
      have hh := verify_response_append cmd s3 _ rest b3 (by rw [hc.1]; exact h4)
      rw [hc.2] at hh
      by_contra hne
      rw [if_neg hne] at hh
      exact absurd hh (by decide)
    · intro hc
      refine ⟨hc.1, ?_⟩
      have hh := verify_response_append cmd s3 _ rest b3 (by rw [hc.1]; exact h4)
      rw [if_pos hc.2] at hh
      exact hh
  · obtain ⟨ops, ht, hops, -⟩ := read_picture_full n s
    refine ⟨ops, ?_, ?_⟩
    · rw [ht]
      simp [frame_ops]
    · rcases hops with h0 | ⟨h1, -⟩
      · exact Or.inl h0
      · exact Or.inr h1
  · exact drains_first COMMAND_RESET [0x0] 1 5 s (by decide)
  · rw [get_image_resolution_state]
    exact drains_first _ _ _ _ s (by decide)
  · exact drains_first COMMAND_WRITE_DATA _ 0x06 0x05 s (by decide)
  · exact drains_first COMMAND_FBUF_CTRL [0x1, COMMAND_STOPCURRENTFRAME] 2 5
      { s with frame_ptr := 0 } (by decide)
  · exact drains_first COMMAND_FBUF_CTRL [0x1, COMMAND_RESUMEFRAME] 2 5
      { s with frame_ptr := 0 } (by decide)
  · rw [frame_length_state]
    exact drains_first _ _ _ _ s (by decide)

theorem run_command_order_witness :
    5 ≤ 100
    ∧ (∃ s3, run_command 0x26 [0x00] 1 5 0 (initState [[0x76, 0x00, 0x26, 0x00, 0x00]])
          = .ret 1 s3
        ∧ s3.trace = [Op.write [0x56, 0x00], Op.write [0x26], Op.write [0x00],
                      Op.read 5 70000 [0x76, 0x00, 0x26, 0x00, 0x00]])
    ∧ (∃ s3, run_command 0x26 [0x00] 1 5 1 (initState [[0x09], [0x76, 0x00, 0x26]])
          = .ret 0 s3
        ∧ s3.trace = [Op.read 100 70000 [0x09], Op.write [0x56, 0x00], Op.write [0x26],
                      Op.write [0x00], Op.read 5 70000 [0x76, 0x00, 0x26]]) := by
  refine ⟨by decide, ?_, ?_⟩
  · obtain ⟨⟨v, s3, rest, e, tr, -, -, -, -, -, h4⟩, -⟩ := run_command_order 0x26 [0x00] 1 5 0
      (initState [[0x76, 0x00, 0x26, 0x00, 0x00]]) 0 0 (by decide)
    have hv : v = 1 := (h4 (by decide)).mpr (by decide)
    subst hv
    exact ⟨s3, e, tr⟩
  · obtain ⟨⟨v, s3, rest, e, tr, -, -, -, -, h0, h4⟩, -⟩ := run_command_order 0x26 [0x00] 1 5 1
      (initState [[0x09], [0x76, 0x00, 0x26]]) 0 0 (by decide)
    have hv : v = 0 := h0 (fun hc => absurd ((h4 (by decide)).mp hc).1 (by decide))
    subst hv
    exact ⟨s3, e, tr⟩

/-- C16 (as stated) fails: `run_command` with `response_length = 200` and the
flush flag set performs the drain read and the three frame writes, then stops
at the assertion of `read_response`: no response read is issued and the call
does not return. -/
theorem run_command_200_has_no_response_read :
    (run_command 0x26 [0x00] 1 200 1 (initState [[0xAA], List.replicate 200 0x76])).val? = none
    ∧ (run_command 0x26 [0x00] 1 200 1 (initState [[0xAA], List.replicate 200 0x76])).state.trace
        = [Op.read 100 70000 [0xAA], Op.write [0x56, 0x00], Op.write [0x26], Op.write [0x00]] := by
  decide

/-! ## Chunk transfer into a caller buffer -/

theorem read_picture_to_ptr_spec (buf : Mem) (n : Nat) (s : State) :
    written (read_picture_to_ptr buf n s).state.trace
        = written s.trace ++ ([0x56, 0x00, 0x32] ++ read_fbuf_args s.frame_ptr n)
    ∧ (¬ ack_ok s → ∃ s1, read_picture_to_ptr buf n s = .ret (some 0, buf) s1
        ∧ s1.frame_ptr = s.frame_ptr)
    ∧ (ack_ok s → ∃ s2, read_picture_to_ptr buf n s
          = .ret (none, store buf s.frame_ptr ((s.rx.tail.headD []).take (n + 5))) s2
        ∧ s2.frame_ptr = (s.frame_ptr + n) % 65536
        ∧ s2.rx = s.rx.tail.tail) := by
  obtain ⟨s1, rest1, e1, b1, l1, f1, r1, t1⟩ :=
    run_command_header COMMAND_READ_FBUF (read_fbuf_args s.frame_ptr n)
      (read_fbuf_args s.frame_ptr n).length 5 0 s (by decide) (by decide)
  have hoff : (response_offer 0 s).take 5 = ack_bytes s := by
    simp [response_offer, ack_bytes]
  rw [hoff] at e1
  simp only [List.take_length, COMMAND_READ_FBUF, ne_eq, not_true_eq_false, if_false] at t1 r1
  have e1b : run_command COMMAND_READ_FBUF (read_fbuf_args s.frame_ptr n)
      (read_fbuf_args s.frame_ptr n).length 5 0 s
        = Outcome.ret (if ack_ok s then (1 : Int) else 0) s1 := e1
  have hun : read_picture_to_ptr buf n s
      = (Outcome.ret (if ack_ok s then (1 : Int) else 0) s1).bind fun response s1 =>
          if response = 0 then .ret (some 0, buf) s1
          else
            let r := serial_read_timeout (n + 5) 1000 s1
            let jpeg := store buf s1.frame_ptr r.1
            if response = 0 then .ret (some 0, jpeg) r.2
            else .ret (none, jpeg) { r.2 with frame_ptr := (r.2.frame_ptr + n) % 65536 } := by
    rw [← e1b]; rfl
  by_cases hack : ack_ok s
  · rw [if_pos hack] at hun
    simp only [Outcome.bind, one_ne_zero, if_false, serial_read_timeout] at hun
    rw [f1, r1] at hun
    refine ⟨?_, fun h => absurd hack h, fun _ => ⟨_, hun, rfl, rfl⟩⟩
    rw [hun]
    simp [Outcome.state, written_append, written, t1]
  · rw [if_neg hack] at hun
    simp only [Outcome.bind, if_true] at hun
    rw [hun]
    refine ⟨?_, fun _ => ⟨s1, rfl, f1⟩, fun h => absurd h hack⟩
    simp [Outcome.state, t1]

/-- C17: evaluation at the failing input. With a valid acknowledgment and an
empty payload read, `read_picture(64)` and `read_picture_to_ptr(buf, 64)`
write the same bytes, but `read_picture` returns the null pointer with
`frame_ptr` still 0 while `read_picture_to_ptr` leaves `frame_ptr = 64`. -/
theorem read_picture_to_ptr_advances_on_empty_payload :
    written (read_picture 64 (initState [fbuf_ack, []])).state.trace
        = written (read_picture_to_ptr zeroMem 64 (initState [fbuf_ack, []])).state.trace
    ∧ (read_picture 64 (initState [fbuf_ack, []])).val? = some Ptr.null
    ∧ (read_picture 64 (initState [fbuf_ack, []])).state.frame_ptr = 0
    ∧ (read_picture_to_ptr zeroMem 64 (initState [fbuf_ack, []])).state.frame_ptr = 64 := by
  decide

theorem store_below (mem : Mem) (off : Nat) (got : List Nat) (j : Nat) (h : j < off) :
    store mem off got j = mem j := by
  unfold store
  rw [if_neg (by omega)]

theorem store_at (mem : Mem) (off : Nat) (got : List Nat) (i : Nat) (h : i < got.length) :
    store mem off got (off + i) = got.getD i 0 := by
  unfold store
  rw [if_pos (by omega), Nat.add_sub_cancel_left]

theorem getD_take (p : List Nat) (m i : Nat) (h : i < m) :
    (p.take m).getD i 0 = p.getD i 0 := by
  simp only [List.getD_eq_getElem?_getD, List.getElem?_take_of_lt h]

theorem read_picture_to_ptr_times_spec (n : Nat) :
    ∀ (N : Nat) (buf : Mem) (s : State), chunks_delivered n N s.rx →
      s.frame_ptr + N * n < 65536 →
      ∃ buf1 s1, read_picture_to_ptr_times n N buf s = some (buf1, s1)
        ∧ s1.frame_ptr = s.frame_ptr + N * n
        ∧ (∀ i, i < N * n → buf1 (s.frame_ptr + i) = (payload_concat n N s.rx).getD i 0)
        ∧ (∀ j, j < s.frame_ptr → buf1 j = buf j) := by
  intro N
  induction N with
  | zero =>
    intro buf s _ _
    refine ⟨buf, s, rfl, by simp, ?_, fun _ _ => rfl⟩
    intro i hi
    simp at hi
  | succ k ih =>
    intro buf s hch hlt
    have hmul : (k + 1) * n = n + k * n := by ring
    rw [hmul] at hlt
    rcases hrx : s.rx with _ | ⟨a, _ | ⟨p, rest⟩⟩
    · rw [hrx] at hch; exact absurd hch (by simp [chunks_delivered])
    · rw [hrx] at hch; exact absurd hch (by simp [chunks_delivered])
    · rw [hrx] at hch
      obtain ⟨hack0, hplen, hrest⟩ := hch
      have hack : ack_ok s := by
        simpa [ack_ok, ack_bytes, hrx] using hack0
      obtain ⟨s2, e2, f2, r2⟩ := (read_picture_to_ptr_spec buf n s).2.2 hack
      have hoffer : (s.rx.tail.headD []).take (n + 5) = p.take (n + 5) := by
        rw [hrx]; rfl
      rw [hoffer] at e2
      have hr2 : s2.rx = rest := by rw [r2, hrx]; rfl
      have hf2 : s2.frame_ptr = s.frame_ptr + n := by
        rw [f2]
        exact Nat.mod_eq_of_lt (by omega)
      obtain ⟨buf1, s1, e1, f1, hdata, hkeep⟩ :=
        ih (store buf s.frame_ptr (p.take (n + 5))) s2 (by rw [hr2]; exact hrest)
          (by rw [hf2]; omega)
      refine ⟨buf1, s1, ?_, ?_, ?_, ?_⟩
      · unfold read_picture_to_ptr_times
        rw [e2]
        exact e1
      · rw [f1, hf2, hmul]
        omega
      · intro i hi
        rw [hmul] at hi
        have hpn : (p.take n).length = n := by
          have h5 : (p.take (n + 5)).length = n + 5 := hplen
          rw [List.length_take] at h5 ⊢
          omega
        simp only [payload_concat]
        by_cases hin : i < n
        · rw [hkeep (s.frame_ptr + i) (by rw [hf2]; omega),
            store_at _ _ _ i (by rw [hplen]; omega),
            List.getD_append _ _ _ _ (by rw [hpn]; exact hin),
            getD_take p (n + 5) i (by omega), getD_take p n i hin]
        · have hi2 : i - n < k * n := by omega
          have h := hdata (i - n) hi2
          rw [hf2, hr2] at h
          have hidx : s.frame_ptr + n + (i - n) = s.frame_ptr + i := by omega
          rw [hidx] at h
          rw [h, List.getD_append_right _ _ _ _ (by rw [hpn]; omega), hpn]
      · intro j hj
        rw [hkeep j (by rw [hf2]; omega), store_below _ _ _ _ hj]

theorem payload_concat_length (n : Nat) :
    ∀ (N : Nat) (rx : List (List Nat)), chunks_delivered n N rx →
      (payload_concat n N rx).length = N * n := by
  intro N
  induction N with
  | zero =>
    intro rx _
    simp [payload_concat]
  | succ k ih =>
    intro rx hch
    rcases rx with _ | ⟨a, _ | ⟨p, rest⟩⟩
    · exact absurd hch (by simp [chunks_delivered])
    · exact absurd hch (by simp [chunks_delivered])
    · obtain ⟨-, hplen, hrest⟩ := hch
      simp only [payload_concat, List.length_append, ih rest hrest]
      rw [List.length_take] at hplen ⊢
      have hmul : (k + 1) * n = n + k * n := by ring
      omega

/-- C18: starting from `frame_ptr = 0`, after `N` consecutive
`read_picture_to_ptr(buf, n)` calls in each of which the acknowledgment is
valid and the payload read delivers `n+5` bytes, with `N*n < 2^16`, the calls
all complete, `frame_ptr = N*n`, and `buf[0 .. N*n)` is the concatenation of
the first `n` bytes of the payloads in call order. -/
theorem read_picture_to_ptr_chunks (n N : Nat) (buf : Mem) (s : State)
    (h0 : s.frame_ptr = 0) (hN : N * n < 65536) (hch : chunks_delivered n N s.rx) :
    ∃ buf1 s1, read_picture_to_ptr_times n N buf s = some (buf1, s1)
      ∧ s1.frame_ptr = N * n
      ∧ (payload_concat n N s.rx).length = N * n
      ∧ (∀ i, i < N * n → buf1 i = (payload_concat n N s.rx).getD i 0) := by
  obtain ⟨buf1, s1, e, f, hdata, -⟩ :=
    read_picture_to_ptr_times_spec n N buf s hch (by rw [h0]; omega)
  refine ⟨buf1, s1, e, by rw [f, h0, Nat.zero_add], payload_concat_length n N s.rx hch, ?_⟩
  intro i hi
  have h := hdata i hi
  rw [h0, Nat.zero_add] at h
  exact h

theorem read_picture_to_ptr_chunks_witness :
    ∃ buf1 s1, read_picture_to_ptr_times 2 2 zeroMem
        (initState [fbuf_ack, [1, 2, 3, 4, 5, 6, 7], fbuf_ack, [8, 9, 10, 11, 12, 13, 14]])
          = some (buf1, s1)
      ∧ s1.frame_ptr = 4
      ∧ buf1 0 = 1 ∧ buf1 1 = 2 ∧ buf1 2 = 8 ∧ buf1 3 = 9 := by
  obtain ⟨buf1, s1, e, f, -, hdata⟩ := read_picture_to_ptr_chunks 2 2 zeroMem
    (initState [fbuf_ack, [1, 2, 3, 4, 5, 6, 7], fbuf_ack, [8, 9, 10, 11, 12, 13, 14]])
    rfl (by decide) (by simp [chunks_delivered, initState, fbuf_ack])
  exact ⟨buf1, s1, e, f, hdata 0 (by decide), hdata 1 (by decide), hdata 2 (by decide),
    hdata 3 (by decide)⟩

end Camera

namespace Motor

/-! ## Motor limits -/

theorem to_u16_add (a b : Nat) (h : a + b < 65536) :
    to_u16 ((a : Int) + (b : Int)) = a + b := by
  unfold to_u16
  omega

theorem to_u16_sub (a b : Nat) (hb : b ≤ a) (ha : a < 65536) :
    to_u16 ((a : Int) - (b : Int)) = a - b := by
  unfold to_u16
  omega

theorem move_up_limits (s : State) (hlim : in_limits s) (hu : s.updown_speed ≤ 58036) :
    ∃ t, move_up s = some t ∧ in_limits t ∧ s.PWM_CW180 ≤ t.PWM_CW180
      ∧ t.updown_speed = s.updown_speed ∧ t.leftright_speed = s.leftright_speed
      ∧ (s.PWM_CW180 = kCW180_MAX → t = s) := by
  obtain ⟨h1, h2, h3, h4⟩ := hlim
  unfold move_up
  simp only [kCW180_MIN, kCW180_MAX, kCW360_MIN, kCW360_MAX, kCW360_MID, kRANGE360, in_limits]
    at h1 h2 h3 h4 ⊢
  by_cases c1 : s.PWM_CW180 < 7500
  · rw [if_pos c1, to_u16_add _ _ (by omega)]
    by_cases c2 : s.PWM_CW180 + s.updown_speed < 7500
    · simp only [if_pos c2]
      rw [if_pos (by omega)]
      exact ⟨_, rfl, ⟨by dsimp only; omega, by dsimp only; omega, h3, h4⟩,
        by dsimp only; omega, rfl, rfl, fun h => by omega⟩
    · simp only [if_neg c2]
      rw [if_pos (le_refl _)]
      exact ⟨_, rfl, ⟨by dsimp only; omega, by dsimp only; omega, h3, h4⟩,
        by dsimp only; omega, rfl, rfl, fun h => by omega⟩
  · rw [if_neg c1]
    exact ⟨s, rfl, ⟨h1, h2, h3, h4⟩, le_refl _, rfl, rfl, fun _ => rfl⟩

theorem move_down_limits (s : State) (hlim : in_limits s) (hu : s.updown_speed ≤ 1851) :
    ∃ t, move_down s = some t ∧ in_limits t ∧ t.PWM_CW180 ≤ s.PWM_CW180
      ∧ t.updown_speed = s.updown_speed ∧ t.leftright_speed = s.leftright_speed
      ∧ (s.PWM_CW180 = kCW180_MIN → t = s) := by
  obtain ⟨h1, h2, h3, h4⟩ := hlim
  unfold move_down
  simp only [kCW180_MIN, kCW180_MAX, kCW360_MIN, kCW360_MAX, kCW360_MID, kRANGE360, in_limits,
    gt_iff_lt, ge_iff_le] at h1 h2 h3 h4 ⊢
  by_cases c1 : 1850 < s.PWM_CW180
  · rw [if_pos c1, to_u16_sub _ _ (by omega) (by omega)]
    by_cases c2 : 1850 < s.PWM_CW180 - s.updown_speed
    · simp only [if_pos c2]
      rw [if_pos (by omega)]
      exact ⟨_, rfl, ⟨by dsimp only; omega, by dsimp only; omega, h3, h4⟩,
        by dsimp only; omega, rfl, rfl, fun h => by omega⟩
    · simp only [if_neg c2]
      rw [if_pos (le_refl _)]
      exact ⟨_, rfl, ⟨by dsimp only; omega, by dsimp only; omega, h3, h4⟩,
        by dsimp only; omega, rfl, rfl, fun h => by omega⟩
  · rw [if_neg c1]
    exact ⟨s, rfl, ⟨h1, h2, h3, h4⟩, le_refl _, rfl, rfl, fun _ => rfl⟩

theorem move_left_limits (s : State) (hlim : in_limits s) (hl : s.leftright_speed ≤ 60386) :
    ∃ t, move_left s = some t ∧ in_limits t ∧ s.PWM_CW360 ≤ t.PWM_CW360
      ∧ t.updown_speed = s.updown_speed ∧ t.leftright_speed = s.leftright_speed
      ∧ (s.PWM_CW360 = kCW360_MAX → t = s) := by
  obtain ⟨h1, h2, h3, h4⟩ := hlim
  unfold move_left
  simp only [kCW180_MIN, kCW180_MAX, kCW360_MIN, kCW360_MAX, kCW360_MID, kRANGE360, in_limits]
    at h1 h2 h3 h4 ⊢
  by_cases c1 : s.PWM_CW360 < 4150 + 1000
  · rw [if_pos c1, to_u16_add _ _ (by omega)]
    by_cases c2 : s.PWM_CW360 + s.leftright_speed < 4150 + 1000
    · simp only [if_pos c2]
      rw [if_pos (by omega)]
      exact ⟨_, rfl, ⟨h1, h2, by dsimp only; omega, by dsimp only; omega⟩,
        by dsimp only; omega, rfl, rfl, fun h => by omega⟩
    · simp only [if_neg c2]
      rw [if_pos (le_refl _)]
      exact ⟨_, rfl, ⟨h1, h2, by dsimp only; omega, by dsimp only; omega⟩,
        by dsimp only; omega, rfl, rfl, fun h => by omega⟩
  · rw [if_neg c1]
    exact ⟨s, rfl, ⟨h1, h2, h3, h4⟩, le_refl _, rfl, rfl, fun _ => rfl⟩

theorem move_right_limits (s : State) (hlim : in_limits s) (hl : s.leftright_speed ≤ 3151) :
    ∃ t, move_right s = some t ∧ in_limits t ∧ t.PWM_CW360 ≤ s.PWM_CW360
      ∧ t.updown_speed = s.updown_speed ∧ t.leftright_speed = s.leftright_speed
      ∧ (s.PWM_CW360 = kCW360_MIN → t = s) := by
  obtain ⟨h1, h2, h3, h4⟩ := hlim
  unfold move_right
  simp only [kCW180_MIN, kCW180_MAX, kCW360_MIN, kCW360_MAX, kCW360_MID, kRANGE360, in_limits,
    gt_iff_lt, ge_iff_le] at h1 h2 h3 h4 ⊢
  by_cases c1 : 4150 - 1000 < s.PWM_CW360
  · rw [if_pos c1, to_u16_sub _ _ (by omega) (by omega)]
    by_cases c2 : 4150 - 1000 < s.PWM_CW360 - s.leftright_speed
    · simp only [if_pos c2]
      rw [if_pos (by omega)]
      exact ⟨_, rfl, ⟨h1, h2, by dsimp only; omega, by dsimp only; omega⟩,
        by dsimp only; omega, rfl, rfl, fun h => by omega⟩
    · simp only [if_neg c2]
      rw [if_pos (le_refl _)]
      exact ⟨_, rfl, ⟨h1, h2, by dsimp only; omega, by dsimp only; omega⟩,
        by dsimp only; omega, rfl, rfl, fun h => by omega⟩
  · rw [if_neg c1]
    exact ⟨s, rfl, ⟨h1, h2, h3, h4⟩, le_refl _, rfl, rfl, fun _ => rfl⟩

theorem set_motor_speed_small (m : Int) (hm0 : 0 ≤ m) (hm : m ≤ 37) (s : State) :
    (set_motor_speed m s).updown_speed ≤ 1850
    ∧ (set_motor_speed m s).leftright_speed ≤ 370
    ∧ (set_motor_speed m s).PWM_CW180 = s.PWM_CW180
    ∧ (set_motor_speed m s).PWM_CW360 = s.PWM_CW360 := by
  refine ⟨?_, ?_, rfl, rfl⟩
  · show to_u16 (50 * m) ≤ 1850
    unfold to_u16
    rw [Int.emod_eq_of_lt (by omega) (by omega)]
    omega
  · show to_u16 (10 * m) ≤ 370
    unfold to_u16
    rw [Int.emod_eq_of_lt (by omega) (by omega)]
    omega

/-- C19 (amended): for every speed multiplier `m` with `0 <= m <= 37` passed to
`set_motor_speed` and every register state within the limits, each of
`move_up`, `move_down`, `move_left` and `move_right` passes its assertion and
leaves both registers within the limits. -/
theorem moves_keep_limits (m : Int) (hm0 : 0 ≤ m) (hm : m ≤ 37) (s : State)
    (hlim : in_limits s) :
    (∃ t, move_up (set_motor_speed m s) = some t ∧ in_limits t)
    ∧ (∃ t, move_down (set_motor_speed m s) = some t ∧ in_limits t)
    ∧ (∃ t, move_left (set_motor_speed m s) = some t ∧ in_limits t)
    ∧ (∃ t, move_right (set_motor_speed m s) = some t ∧ in_limits t) := by
  obtain ⟨hu, hl, -, -⟩ := set_motor_speed_small m hm0 hm s
  have hlim2 : in_limits (set_motor_speed m s) := hlim
  refine ⟨?_, ?_, ?_, ?_⟩
  · obtain ⟨t, e, h, -⟩ := move_up_limits _ hlim2 (by omega)
    exact ⟨t, e, h⟩
  · obtain ⟨t, e, h, -⟩ := move_down_limits _ hlim2 (by omega)
    exact ⟨t, e, h⟩
  · obtain ⟨t, e, h, -⟩ := move_left_limits _ hlim2 (by omega)
    exact ⟨t, e, h⟩
  · obtain ⟨t, e, h, -⟩ := move_right_limits _ hlim2 (by omega)
    exact ⟨t, e, h⟩

theorem moves_keep_limits_witness :
    (0 : Int) ≤ 37 ∧ (37 : Int) ≤ 37 ∧ in_limits (regs 1851 3151 0 0)
    ∧ (∃ t, move_down (set_motor_speed 37 (regs 1851 3151 0 0)) = some t ∧ in_limits t) :=
  ⟨by decide, by decide, by decide,
   (moves_keep_limits 37 (by decide) (by decide) (regs 1851 3151 0 0) (by decide)).2.1⟩

/-- C19 (as stated) fails: after `set_motor_speed(38)` the step is 1900, and
`move_down` from `PWM_CW180 = 1851` wraps to 65487, above the upper limit;
after `set_motor_speed(-1)` the step is 65486, and `move_up` from
`PWM_CW180 = 1850` wraps to 1800, below the lower limit. Both assertions pass. -/
theorem large_multiplier_leaves_limits :
    in_limits (regs 1851 4150 0 0)
    ∧ move_down (set_motor_speed 38 (regs 1851 4150 0 0)) = some (regs 65487 4150 1900 380)
    ∧ ¬ in_limits (regs 65487 4150 1900 380)
    ∧ in_limits (regs 1850 4150 0 0)
    ∧ move_up (set_motor_speed (-1) (regs 1850 4150 0 0)) = some (regs 1800 4150 65486 65526)
    ∧ ¬ in_limits (regs 1800 4150 65486 65526) := by
  decide

theorem step_default (c : Cmd) (s : State) (hlim : in_limits s) (hu : s.updown_speed = 50)
    (hl : s.leftright_speed = 10) :
    ∃ t, step c s = some t ∧ in_limits t ∧ t.updown_speed = 50 ∧ t.leftright_speed = 10 := by
  cases c with
  | move_up =>
    obtain ⟨t, e, h, -, eu, el, -⟩ := move_up_limits s hlim (by omega)
    exact ⟨t, e, h, by rw [eu, hu], by rw [el, hl]⟩
  | move_down =>
    obtain ⟨t, e, h, -, eu, el, -⟩ := move_down_limits s hlim (by omega)
    exact ⟨t, e, h, by rw [eu, hu], by rw [el, hl]⟩
  | move_left =>
    obtain ⟨t, e, h, -, eu, el, -⟩ := move_left_limits s hlim (by omega)
    exact ⟨t, e, h, by rw [eu, hu], by rw [el, hl]⟩
  | move_right =>
    obtain ⟨t, e, h, -, eu, el, -⟩ := move_right_limits s hlim (by omega)
    exact ⟨t, e, h, by rw [eu, hu], by rw [el, hl]⟩
  | stop_leftrght =>
    obtain ⟨h1, h2, -, -⟩ := hlim
    exact ⟨_, rfl, ⟨h1, h2, show kCW360_MIN ≤ kCW360_MID from (by decide),
      show kCW360_MID ≤ kCW360_MAX from (by decide)⟩, hu, hl⟩
  | motor_load => exact ⟨_, rfl, hlim, hu, hl⟩
  | motor_fire => exact ⟨_, rfl, hlim, hu, hl⟩

theorem run_default :
    ∀ (cmds : List Cmd) (s : State), in_limits s → s.updown_speed = 50 →
      s.leftright_speed = 10 →
      ∃ t, run cmds s = some t ∧ in_limits t ∧ t.updown_speed = 50 ∧ t.leftright_speed = 10 := by
  intro cmds
  induction cmds with
  | nil =>
    intro s hlim hu hl
    exact ⟨s, rfl, hlim, hu, hl⟩
  | cons c cs ih =>
    intro s hlim hu hl
    obtain ⟨s1, e1, hlim1, hu1, hl1⟩ := step_default c s hlim hu hl
    obtain ⟨t, e, h⟩ := ih s1 hlim1 hu1 hl1
    refine ⟨t, ?_, h⟩
    unfold run
    rw [e1]
    exact e

/-- C20: every finite sequence of `move_up`, `move_down`, `move_left`,
`move_right`, `stop_leftrght`, `motor_load` and `motor_fire` run after
`init_motors` passes all assertions and ends in a state with
`1850 <= PWM_CW180 <= 7500` and `3150 <= PWM_CW360 <= 5150`; there `move_up`
and `move_left` do not decrease and `move_down` and `move_right` do not
increase their register, and a move at its limit changes nothing. -/
theorem reachable_within_limits (s0 : State) (cmds : List Cmd) :
    ∃ s, run cmds (init_motors s0) = some s
      ∧ (1850 ≤ s.PWM_CW180 ∧ s.PWM_CW180 ≤ 7500 ∧ 3150 ≤ s.PWM_CW360 ∧ s.PWM_CW360 ≤ 5150)
      ∧ (∃ t, move_up s = some t ∧ s.PWM_CW180 ≤ t.PWM_CW180 ∧ (s.PWM_CW180 = 7500 → t = s))
      ∧ (∃ t, move_down s = some t ∧ t.PWM_CW180 ≤ s.PWM_CW180 ∧ (s.PWM_CW180 = 1850 → t = s))
      ∧ (∃ t, move_left s = some t ∧ s.PWM_CW360 ≤ t.PWM_CW360 ∧ (s.PWM_CW360 = 5150 → t = s))
      ∧ (∃ t, move_right s = some t ∧ t.PWM_CW360 ≤ s.PWM_CW360
            ∧ (s.PWM_CW360 = 3150 → t = s)) := by
  have hinit : in_limits (init_motors s0) := by
    simp only [in_limits, init_motors]
    decide
  obtain ⟨s, e, hlim, hu, hl⟩ := run_default cmds (init_motors s0) hinit rfl rfl
  refine ⟨s, e, hlim, ?_, ?_, ?_, ?_⟩
  · obtain ⟨t, et, -, hmono, -, -, hfix⟩ := move_up_limits s hlim (by omega)
    exact ⟨t, et, hmono, hfix⟩
  · obtain ⟨t, et, -, hmono, -, -, hfix⟩ := move_down_limits s hlim (by omega)
    exact ⟨t, et, hmono, hfix⟩
  · obtain ⟨t, et, -, hmono, -, -, hfix⟩ := move_left_limits s hlim (by omega)
    exact ⟨t, et, hmono, hfix⟩
  · obtain ⟨t, et, -, hmono, -, -, hfix⟩ := move_right_limits s hlim (by omega)
    exact ⟨t, et, hmono, hfix⟩

theorem reachable_within_limits_witness :
    run (List.replicate 60 Cmd.move_up ++ [Cmd.motor_fire, Cmd.move_right])
        (init_motors (regs 0 0 0 0)) = some (motor_fire (regs 7500 4140 50 10))
    ∧ ∃ s, run (List.replicate 60 Cmd.move_up ++ [Cmd.motor_fire, Cmd.move_right])
          (init_motors (regs 0 0 0 0)) = some s
        ∧ s.PWM_CW180 ≤ 7500 := by
  refine ⟨by decide, ?_⟩
  obtain ⟨s, e, h, -⟩ := reachable_within_limits (regs 0 0 0 0)
    (List.replicate 60 Cmd.move_up ++ [Cmd.motor_fire, Cmd.move_right])
  exact ⟨s, e, h.2.1⟩

end Motor
